import Mathlib

/-!
# iofailuresim: a shallow embedding of `iofailuresim.c`

The C file interposes `write`, `fsync` and `fdatasync`.  Its globals become the
record `State`; everything the code obtains from outside the process (the
environment variables, `fstat`, `random` and the real `write` of the C library)
becomes the record `World`, which also logs every call of the real `write`.

Conventions of the embedding.

* A pointer is an `Option`: `none` is `NULL`, `some blk` points to the heap block
  `blk` (its bytes, in order; the length of the list is the allocated size).
* `malloc` and `realloc` with a non-zero size always succeed (memory is unbounded),
  so the assertions on their results are kept but cannot fire.
* The mutex is not modelled.  A call runs to completion before the next one
  starts, except in `fsync_write_in_flight`, where a `write` of another thread
  runs at the point where `fsync` releases the lock before its loop.
* `kill(getpid(), SIGKILL)` ends the process: the outcome `killed`.
  A failed `assert` ends it with the outcome `aborted`.
* `fd_to_buf[fd]` with `fd` outside the allocated table has no defined behaviour
  in C: the outcome `undefined`.
* The `while` loop of `fsync` is run with fuel; the outcome `outOfFuel` is not a
  behaviour of the program.
-/

set_option maxRecDepth 100000

namespace IOFailureSim

/-- One byte of a buffer. -/
abbrev Byte := Fin 256

/-- Source line 16: `const static int kMaxFd = 1024;`. -/
def kMaxFd : Int := 1024

/-- Modulus of `size_t` arithmetic. -/
def SIZE_MOD : Nat := 2 ^ 64

/-- Source lines 18-21: `struct Buf { void* data; size_t len; }`. -/
structure Buf where
  data : Option (List Byte)
  len : Nat
deriving DecidableEq, Repr

/-- What `getenv` followed by `atoi` yields for the three variables read by
`maybe_init`; `none` when the variable is not set. -/
structure Env where
  CRASH_FAILURE_ONE_IN : Option Int
  SYNC_FAILURE_ONE_IN : Option Int
  CRASH_AFTER_SYNC_FAILURE : Option Int
deriving DecidableEq, Repr

/-- The globals of source lines 26-34. -/
structure State where
  fd_to_buf : Option (List Buf)
  crash_failure_one_in : Int
  sync_failure_one_in : Int
  crash_after_sync_failure : Bool
  num_syncs_until_crash : Int
deriving DecidableEq, Repr

/-- The static initialisers of source lines 26-34. -/
def State.initial : State :=
  { fd_to_buf := none
    crash_failure_one_in := -1
    sync_failure_one_in := -1
    crash_after_sync_failure := false
    num_syncs_until_crash := -1 }

/-- Result of `fstat`: its return value and `S_ISREG(statbuf.st_mode)`. -/
structure StatResult where
  status : Int
  isreg : Bool
deriving DecidableEq, Repr

/-- One call of the real `write`: its three arguments (`buf` is the block the
pointer argument points to) and the value it returned. -/
structure WriteCall where
  fd : Int
  buf : List Byte
  count : Nat
  ret : Int
deriving DecidableEq, Repr

/-- Everything outside the process.  `fstat k fd` answers the `k`-th `fstat` call,
`random k` is the `k`-th value of `random()`, `libc k fd buf count` is what the real
`write` returns when it is called for the `k`-th time with these arguments.
`nstat` and `nrand` count the calls made so far and `log` lists the calls of the
real `write` made so far, oldest first. -/
structure World where
  env : Env
  fstat : Nat → Int → StatResult
  random : Nat → Nat
  libc : Nat → Int → List Byte → Nat → Int
  nstat : Nat
  nrand : Nat
  log : List WriteCall

/-- How a call of an interposed function ends. -/
inductive Outcome (α : Type) where
  | ret (v : α) (s : State) (w : World)
  | killed (w : World)
  | aborted (w : World)
  | undefined (w : World)
  | outOfFuel (w : World)

/-- The world in which a call ended. -/
def Outcome.world {α : Type} : Outcome α → World
  | .ret _ _ w => w
  | .killed w => w
  | .aborted w => w
  | .undefined w => w
  | .outOfFuel w => w

/-- The value a call returned, if it returned. -/
def Outcome.value {α : Type} : Outcome α → Option α
  | .ret v _ _ => some v
  | _ => none

/-- The state after a call, if it returned. -/
def Outcome.state {α : Type} : Outcome α → Option State
  | .ret _ s _ => some s
  | _ => none

/-- The process was ended by `SIGKILL`. -/
def Outcome.isKilled {α : Type} : Outcome α → Bool
  | .killed _ => true
  | _ => false

/-- The process was ended by a failed assertion. -/
def Outcome.isAborted {α : Type} : Outcome α → Bool
  | .aborted _ => true
  | _ => false

/-- The call indexed the table outside its allocation. -/
def Outcome.isUndefined {α : Type} : Outcome α → Bool
  | .undefined _ => true
  | _ => false

/-- `fd_to_buf[fd]` as an rvalue: `none` when `fd_to_buf` is `NULL` or `fd` is not an
index of the allocated table. -/
def State.entry (s : State) (fd : Int) : Option Buf :=
  match s.fd_to_buf with
  | none => none
  | some tbl => if fd < 0 then none else tbl[fd.toNat]?

/-- `fd_to_buf[fd] = b`, for `fd` an index of the table. -/
def State.setEntry (s : State) (fd : Int) (b : Buf) : State :=
  { s with fd_to_buf := s.fd_to_buf.map (fun tbl => tbl.set fd.toNat b) }

/-- The bytes buffered for `fd`: the first `len` bytes of the block `data` points
to; none when `data` is `NULL` or `fd` has no table entry. -/
def State.pending (s : State) (fd : Int) : List Byte :=
  match s.entry fd with
  | none => []
  | some b =>
    match b.data with
    | none => []
    | some blk => blk.take b.len

/-- Source lines 36-60.  `srandom(time(NULL))` fixes the sequence `World.random`. -/
def maybe_init (s : State) (w : World) : State :=
  match s.fd_to_buf with
  | some _ => s
  | none =>
    let s1 : State := { s with fd_to_buf := some (List.replicate kMaxFd.toNat ⟨none, 0⟩) }
    let s2 : State :=
      match w.env.CRASH_FAILURE_ONE_IN with
      | some v => { s1 with crash_failure_one_in := v }
      | none => s1
    let s3 : State :=
      match w.env.SYNC_FAILURE_ONE_IN with
      | some v => { s2 with sync_failure_one_in := v }
      | none => s2
    match w.env.CRASH_AFTER_SYNC_FAILURE with
    | some v => if v = 1 then { s3 with crash_after_sync_failure := true } else s3
    | none => s3

/-- Source lines 63-71: forwards to the real `write` and logs the call. -/
def libc_write (w : World) (fd : Int) (buf : List Byte) (count : Nat) : Int × World :=
  let r := w.libc w.log.length fd buf count
  (r, { w with log := w.log ++ [⟨fd, buf, count, r⟩] })

/-- `realloc(p, n)` for `n > 0`: a block of `n` bytes that starts with the old
block's bytes; the bytes beyond them are unspecified in C and are `0` here. -/
def realloc (p : Option (List Byte)) (n : Nat) : Option (List Byte) :=
  let old := p.getD []
  some (old.take n ++ List.replicate (n - old.length) 0)

/-- `memcpy(dst + off, src, count)`: `count` bytes of the block `dst`, from offset
`off` on, are replaced by the first `count` bytes at `src`; bytes read beyond the end
of `src` are unspecified in C and are `0` here. -/
def memcpy (dst : List Byte) (off : Nat) (src : List Byte) (count : Nat) : List Byte :=
  dst.take off ++ (src.take count ++ List.replicate (count - src.length) 0) ++
    dst.drop (off + count)

/-- Source lines 75-101. -/
def write (s : State) (w : World) (fd : Int) (buf : Option (List Byte)) (count : Nat) :
    Outcome Int :=
  let s := maybe_init s w
  if ¬ fd < kMaxFd then .aborted w
  else
    match buf with
    | none => .ret 0 s w
    | some bytes =>
      if count = 0 then .ret 0 s w
      else
        let st := w.fstat w.nstat fd
        let w1 : World := { w with nstat := w.nstat + 1 }
        if st.status ≠ 0 then .aborted w1
        else if st.isreg = false then
          let r := libc_write w1 fd bytes count
          .ret r.1 s r.2
        else
          match s.entry fd with
          | none => .undefined w1
          | some b =>
            let old_len := b.len
            let len := b.len + count
            match realloc b.data len with
            | none => .aborted w1
            | some blk =>
              .ret (count : Int) (s.setEntry fd ⟨some (memcpy blk old_len bytes count), len⟩) w1

/-- `old_buf.len -= (size_t)ret`, in `size_t` arithmetic. -/
def size_sub (len : Nat) (ret : Int) : Nat :=
  (((len : Int) - ret) % (SIZE_MOD : Int)).toNat

/-- How the loop of `fsync` ends: all bytes accounted for, the assertion
`ret > 0` failed, or the fuel ran out. -/
inductive Flush where
  | done (w : World)
  | failed (w : World)
  | outOfFuel (w : World)

/-- Source lines 138-142, the loop of `fsync`, with `fuel` bounding the number of
iterations.  The pointer `old_buf.data` is the same in every iteration; only
`old_buf.len` changes. -/
def flush_loop (fd : Int) (data : List Byte) : Nat → Nat → World → Flush
  | fuel, len, w =>
    if len = 0 then .done w
    else
      match fuel with
      | 0 => .outOfFuel w
      | fuel + 1 =>
        let r := libc_write w fd data len
        if r.1 > 0 then flush_loop fd data fuel (size_sub len r.1) r.2
        else .failed r.2

/-- The condition `one_in > 0 && random() % one_in == 0` of source lines 126 and
128: `random()` is called only when `one_in > 0`.  Returns whether the condition
holds and the world after the evaluation. -/
def draw_selects (one_in : Int) (w : World) : Bool × World :=
  if one_in > 0 then
    (decide ((w.random w.nrand : Int) % one_in = 0), { w with nrand := w.nrand + 1 })
  else (false, w)

/-- Source lines 116-147: `fsync` after the countdown step. -/
def fsync_body (fuel : Nat) (s : State) (w : World) (fd : Int) : Outcome Int :=
  match s.entry fd with
  | none => .undefined w
  | some old_buf =>
    match old_buf.data with
    | none => .ret 0 s w
    | some data =>
      let s2 := s.setEntry fd ⟨none, 0⟩
      let crash := draw_selects s2.crash_failure_one_in w
      if crash.1 then .killed crash.2
      else
        let fail := draw_selects s2.sync_failure_one_in crash.2
        if fail.1 then
          let s3 : State :=
            if s2.num_syncs_until_crash = -1 then { s2 with num_syncs_until_crash := 10 }
            else s2
          .ret (-1) s3 fail.2
        else
          match flush_loop fd data fuel old_buf.len fail.2 with
          | .done w3 => .ret 0 s2 w3
          | .failed w3 => .aborted w3
          | .outOfFuel w3 => .outOfFuel w3

/-- Source lines 107-148. -/
def fsync (fuel : Nat) (s : State) (w : World) (fd : Int) : Outcome Int :=
  let s := maybe_init s w
  if s.num_syncs_until_crash > 0 then
    let s1 : State := { s with num_syncs_until_crash := s.num_syncs_until_crash - 1 }
    if s1.num_syncs_until_crash = 0 then .killed w
    else fsync_body fuel s1 w fd
  else fsync_body fuel s w fd

/-- Source lines 152-154: the body is the statement `fsync(fd);` and nothing else.
The value of `fsync` is discarded and control reaches the closing brace without a
`return`, so no value is returned: `none`. -/
def fdatasync (fuel : Nat) (s : State) (w : World) (fd : Int) : Outcome (Option Int) :=
  match fsync fuel s w fd with
  | .ret _ s1 w1 => .ret none s1 w1
  | .killed w1 => .killed w1
  | .aborted w1 => .aborted w1
  | .undefined w1 => .undefined w1
  | .outOfFuel w1 => .outOfFuel w1

/-- The bytes one call of the real `write` put into the file: the first `ret`
bytes of the `count` bytes at `buf`; nothing when `ret` is not positive. -/
def WriteCall.accepted (c : WriteCall) : List Byte :=
  (c.buf.take c.count).take c.ret.toNat

/-- The bytes that reached the file behind `fd`, in order, over a log of calls. -/
def delivered (log : List WriteCall) (fd : Int) : List Byte :=
  ((log.filter (fun c => c.fd = fd)).map WriteCall.accepted).flatten

/-- A call of one of the three interposed functions. -/
inductive Call where
  | write (fd : Int) (buf : Option (List Byte)) (count : Nat)
  | fsync (fd : Int)
  | fdatasync (fd : Int)
deriving DecidableEq, Repr

/-- Changes the returned value of an outcome. -/
def Outcome.mapValue {α β : Type} (f : α → β) : Outcome α → Outcome β
  | .ret v s w => .ret (f v) s w
  | .killed w => .killed w
  | .aborted w => .aborted w
  | .undefined w => .undefined w
  | .outOfFuel w => .outOfFuel w

/-- One call made by the application; the value is `none` when the function
returned without a value. -/
def step (fuel : Nat) (s : State) (w : World) : Call → Outcome (Option Int)
  | .write fd buf count => (write s w fd buf count).mapValue some
  | .fsync fd => (fsync fuel s w fd).mapValue some
  | .fdatasync fd => fdatasync fuel s w fd

/-- A sequence of calls made one after the other; it stops at the first call that
does not return.  The value is the list of the values returned. -/
def run (fuel : Nat) (s : State) (w : World) : List Call → Outcome (List (Option Int))
  | [] => .ret [] s w
  | c :: cs =>
    match step fuel s w c with
    | .ret v s1 w1 => (run fuel s1 w1 cs).mapValue (fun vs => v :: vs)
    | .killed w1 => .killed w1
    | .aborted w1 => .aborted w1
    | .undefined w1 => .undefined w1
    | .outOfFuel w1 => .outOfFuel w1

/-- A world for examples: every `fstat` succeeds and reports a regular file iff
`isreg`, every `random()` yields `draw`, and the real `write` accepts at most
`chunk` bytes per call. -/
def exampleWorld (env : Env) (isreg : Bool) (draw : Nat) (chunk : Nat) : World where
  env := env
  fstat := fun _ _ => ⟨0, isreg⟩
  random := fun _ => draw
  libc := fun _ _ _ count => ((min chunk count : Nat) : Int)
  nstat := 0
  nrand := 0
  log := []

/-- Representation invariant of one table entry: a `NULL` pointer goes with length
`0`; a present block has exactly `len` bytes and `len` is positive. -/
def Buf.WF (b : Buf) : Prop :=
  match b.data with
  | none => b.len = 0
  | some blk => blk.length = b.len ∧ 0 < b.len

/-- Representation invariant of the globals: once allocated, the table has `kMaxFd`
entries and each of them satisfies `Buf.WF`. -/
def State.WF (s : State) : Prop :=
  ∀ tbl, s.fd_to_buf = some tbl → tbl.length = kMaxFd.toNat ∧ ∀ b ∈ tbl, b.WF

/-- The field `len` of the entry of `fd`; `0` when `fd` has no table entry. -/
def State.len (s : State) (fd : Int) : Nat :=
  match s.entry fd with
  | none => 0
  | some b => b.len

/-- The countdown step of `fsync`, source lines 110-111, on a state in which it
does not reach `0`. -/
def State.countdown (s : State) : State :=
  if s.num_syncs_until_crash > 0 then
    { s with num_syncs_until_crash := s.num_syncs_until_crash - 1 }
  else s

/-- Source lines 129-132: the countdown is set to 10 when it is `-1`. -/
def State.arm (s : State) : State :=
  if s.num_syncs_until_crash = -1 then { s with num_syncs_until_crash := 10 } else s

/-- Every descriptor of the table has an entry and no entry holds a block. -/
def State.allEmpty (s : State) : Prop :=
  ∀ fd : Int, 0 ≤ fd → fd < kMaxFd → ∃ b, s.entry fd = some b ∧ b.data = none

/-- A state for examples: the table is allocated, descriptor 3 holds `bytes` (no
block when `bytes` is empty), every other entry is empty; the two denominators and
the countdown are as given and the flag is off. -/
def exampleState (crash_one_in sync_one_in countdown : Int) (bytes : List Byte) : State where
  fd_to_buf := some ((List.replicate 1024 ⟨none, 0⟩).set 3
    (if bytes = [] then ⟨none, 0⟩ else ⟨some bytes, bytes.length⟩))
  crash_failure_one_in := crash_one_in
  sync_failure_one_in := sync_one_in
  crash_after_sync_failure := false
  num_syncs_until_crash := countdown

/-- The world in which the loop of `fsync` ended. -/
def Flush.world : Flush → World
  | .done w => w
  | .failed w => w
  | .outOfFuel w => w

/-- The real `write` honours its contract: asked for `count > 0` bytes it returns a
number between 1 and `count`. -/
def World.honest (w : World) : Prop :=
  ∀ (k : Nat) (fd : Int) (buf : List Byte) (count : Nat), 0 < count →
    1 ≤ w.libc k fd buf count ∧ w.libc k fd buf count ≤ (count : Int)

/-- The calls `calls` account for `L` bytes of the block `data` on descriptor `fd`:
each call passes `fd` and `data`, requests exactly the number of bytes not yet
accepted and accepts between 1 and that many, and nothing is left after the last
call. -/
def accounts (fd : Int) (data : List Byte) : Nat → List WriteCall → Prop
  | L, [] => L = 0
  | L, c :: cs =>
    c.fd = fd ∧ c.buf = data ∧ c.count = L ∧ 1 ≤ c.ret ∧ c.ret ≤ (L : Int) ∧
      accounts fd data (L - c.ret.toNat) cs

/-- How `fsync` ends after its loop, source lines 143-147: it returns 0 with the
state `s2` when the loop ended normally and aborts when the assertion failed. -/
def Flush.toOutcome (s2 : State) : Flush → Outcome Int
  | .done w => .ret 0 s2 w
  | .failed w => .aborted w
  | .outOfFuel w => .outOfFuel w

/-- The state in which `fsync` reaches source line 116 when the countdown does not
expire: initialised, the countdown decremented if it was positive. -/
def sync_state (s : State) (w : World) : State :=
  (maybe_init s w).countdown

/-- The world after `fsync` evaluated the two conditions of source lines 126 and 128
in the state `s`. -/
def draws_world (s : State) (w : World) : World :=
  (draw_selects s.sync_failure_one_in (draw_selects s.crash_failure_one_in w).2).2

/-- The condition of source line 126 holds in state `s` and world `w`. -/
def crash_selected (s : State) (w : World) : Prop :=
  0 < s.crash_failure_one_in ∧ (w.random w.nrand : Int) % s.crash_failure_one_in = 0

/-- The condition of source line 128 holds in state `s` when it is evaluated after
the condition of line 126 in world `w`. -/
def failure_selected (s : State) (w : World) : Prop :=
  0 < s.sync_failure_one_in ∧
    (w.random (if 0 < s.crash_failure_one_in then w.nrand + 1 else w.nrand) : Int)
      % s.sync_failure_one_in = 0

/-- Both denominators are disabled and the countdown is disarmed. -/
def State.faultsDisabled (s : State) : Prop :=
  s.crash_failure_one_in ≤ 0 ∧ s.sync_failure_one_in ≤ 0 ∧ s.num_syncs_until_crash = -1

/-- The countdown is disarmed or between 1 and 10. -/
def State.countdownOk (s : State) : Prop :=
  s.num_syncs_until_crash = -1 ∨
    (1 ≤ s.num_syncs_until_crash ∧ s.num_syncs_until_crash ≤ 10)

/-- What the part of `fsync` that holds the lock, source lines 108-137, hands over:
the call has ended, or the lock is released at line 137 with the detached buffer
(`old_buf.data`, `old_buf.len`) still to be flushed, in state `s2` and world `w2`. -/
inductive Locked where
  | ended (o : Outcome Int)
  | flushing (s2 : State) (w2 : World) (data : List Byte) (len : Nat)

/-- Source lines 116-137: `fsync_body` up to the release of the lock. -/
def fsync_body_locked (s : State) (w : World) (fd : Int) : Locked :=
  match s.entry fd with
  | none => .ended (.undefined w)
  | some old_buf =>
    match old_buf.data with
    | none => .ended (.ret 0 s w)
    | some data =>
      let s2 := s.setEntry fd ⟨none, 0⟩
      let crash := draw_selects s2.crash_failure_one_in w
      if crash.1 then .ended (.killed crash.2)
      else
        let fail := draw_selects s2.sync_failure_one_in crash.2
        if fail.1 then
          let s3 : State :=
            if s2.num_syncs_until_crash = -1 then { s2 with num_syncs_until_crash := 10 }
            else s2
          .ended (.ret (-1) s3 fail.2)
        else .flushing s2 fail.2 data old_buf.len

/-- Source lines 108-137: `fsync` up to the release of the lock. -/
def fsync_locked (s : State) (w : World) (fd : Int) : Locked :=
  let s := maybe_init s w
  if s.num_syncs_until_crash > 0 then
    let s1 : State := { s with num_syncs_until_crash := s.num_syncs_until_crash - 1 }
    if s1.num_syncs_until_crash = 0 then .ended (.killed w)
    else fsync_body_locked s1 w fd
  else fsync_body_locked s w fd

/-- Source lines 138-147: the rest of `fsync` after the lock was released.  The loop
works on the local copy of the detached buffer and on the world only. -/
def Locked.finish (fuel : Nat) (fd : Int) : Locked → Outcome Int
  | .ended o => o
  | .flushing s2 w2 data len => (flush_loop fd data fuel len w2).toOutcome s2

/-- A call `fsync(fd)` of one thread during which another thread calls
`write(wfd, buf, count)`: the write runs when `fsync` has detached the buffer and
released the lock at source line 137, before the loop of lines 138-142 makes its
first call.  The loop then runs in the world the write left, and the globals are
those the write left, since the loop does not touch them.  The value is the pair of
what `fsync` and `write` returned; `none` when `fsync` ended while it held the lock,
so that no flush was in flight. -/
def fsync_write_in_flight (fuel : Nat) (s : State) (w : World) (fd : Int) (wfd : Int)
    (buf : Option (List Byte)) (count : Nat) : Option (Outcome (Int × Int)) :=
  match fsync_locked s w fd with
  | .ended _ => none
  | .flushing s2 w2 data len =>
    match write s2 w2 wfd buf count with
    | .ret v s3 w3 =>
      some (((flush_loop fd data fuel len w3).toOutcome s3).mapValue (fun r => (r, v)))
    | .killed w3 => some (.killed w3)
    | .aborted w3 => some (.aborted w3)
    | .undefined w3 => some (.undefined w3)
    | .outOfFuel w3 => some (.outOfFuel w3)

/-! ## Basic facts about the table -/

theorem kMaxFd_toNat : kMaxFd.toNat = 1024 := rfl

theorem State.initial_WF : State.initial.WF := by
  intro tbl h
  simp [State.initial] at h

theorem maybe_init_of_some (s : State) (w : World) (tbl : List Buf)
    (h : s.fd_to_buf = some tbl) : maybe_init s w = s := by
  unfold maybe_init
  rw [h]

theorem maybe_init_of_none_table (s : State) (w : World) (h : s.fd_to_buf = none) :
    (maybe_init s w).fd_to_buf = some (List.replicate kMaxFd.toNat ⟨none, 0⟩) := by
  unfold maybe_init
  rw [h]
  cases w.env.CRASH_FAILURE_ONE_IN <;> cases w.env.SYNC_FAILURE_ONE_IN <;>
    cases w.env.CRASH_AFTER_SYNC_FAILURE <;> simp <;> split <;> rfl

theorem maybe_init_isSome (s : State) (w : World) :
    ∃ tbl, (maybe_init s w).fd_to_buf = some tbl := by
  cases h : s.fd_to_buf with
  | none => exact ⟨_, maybe_init_of_none_table s w h⟩
  | some tbl => exact ⟨tbl, by rw [maybe_init_of_some s w tbl h]; exact h⟩

theorem maybe_init_idem (s : State) (w w' : World) :
    maybe_init (maybe_init s w) w' = maybe_init s w := by
  obtain ⟨tbl, h⟩ := maybe_init_isSome s w
  exact maybe_init_of_some _ _ tbl h

theorem maybe_init_WF (s : State) (w : World) (h : s.WF) : (maybe_init s w).WF := by
  cases hs : s.fd_to_buf with
  | some tbl => rw [maybe_init_of_some s w tbl hs]; exact h
  | none =>
    intro tbl htbl
    rw [maybe_init_of_none_table s w hs] at htbl
    cases htbl
    refine ⟨by simp, ?_⟩
    intro b hb
    rw [List.eq_of_mem_replicate hb]
    simp [Buf.WF]

theorem entry_of_none (s : State) (fd : Int) (h : s.fd_to_buf = none) : s.entry fd = none := by
  simp [State.entry, h]

theorem maybe_init_entry_of_none (s : State) (w : World) (fd : Int) (h : s.fd_to_buf = none)
    (h0 : 0 ≤ fd) (h1 : fd < kMaxFd) : (maybe_init s w).entry fd = some ⟨none, 0⟩ := by
  have hlt : fd.toNat < kMaxFd.toNat := by rw [kMaxFd_toNat]; unfold kMaxFd at h1; omega
  have hneg : ¬ fd < 0 := by omega
  unfold State.entry
  rw [maybe_init_of_none_table s w h]
  simp only [hneg, if_false]
  exact List.getElem?_replicate_of_lt hlt

theorem maybe_init_pending (s : State) (w : World) (fd : Int) :
    (maybe_init s w).pending fd = s.pending fd := by
  cases hs : s.fd_to_buf with
  | some tbl => rw [maybe_init_of_some s w tbl hs]
  | none =>
    have h1 : s.pending fd = [] := by simp [State.pending, entry_of_none s fd hs]
    rw [h1]
    unfold State.pending State.entry
    rw [maybe_init_of_none_table s w hs]
    by_cases hneg : fd < 0
    · simp [hneg]
    · simp only [hneg, if_false]
      cases hget : (List.replicate kMaxFd.toNat (⟨none, 0⟩ : Buf))[fd.toNat]? with
      | none => rfl
      | some b =>
        have hb : b ∈ List.replicate kMaxFd.toNat (⟨none, 0⟩ : Buf) := List.getElem?_mem hget
        rw [List.eq_of_mem_replicate hb]

theorem maybe_init_len (s : State) (w : World) (fd : Int) :
    (maybe_init s w).len fd = s.len fd := by
  cases hs : s.fd_to_buf with
  | some tbl => rw [maybe_init_of_some s w tbl hs]
  | none =>
    have h1 : s.len fd = 0 := by simp [State.len, entry_of_none s fd hs]
    rw [h1]
    unfold State.len State.entry
    rw [maybe_init_of_none_table s w hs]
    by_cases hneg : fd < 0
    · simp [hneg]
    · simp only [hneg, if_false]
      cases hget : (List.replicate kMaxFd.toNat (⟨none, 0⟩ : Buf))[fd.toNat]? with
      | none => rfl
      | some b =>
        have hb : b ∈ List.replicate kMaxFd.toNat (⟨none, 0⟩ : Buf) := List.getElem?_mem hget
        rw [List.eq_of_mem_replicate hb]

theorem entry_isSome_of_WF (s : State) (tbl : List Buf) (fd : Int) (hs : s.fd_to_buf = some tbl)
    (h : s.WF) (h0 : 0 ≤ fd) (h1 : fd < kMaxFd) :
    ∃ b, s.entry fd = some b ∧ b ∈ tbl ∧ b.WF := by
  obtain ⟨hlen, hall⟩ := h tbl hs
  have hlt : fd.toNat < tbl.length := by rw [hlen, kMaxFd_toNat]; unfold kMaxFd at h1; omega
  refine ⟨tbl[fd.toNat], ?_, List.getElem_mem _, hall _ (List.getElem_mem _)⟩
  simp [State.entry, hs, hlt]
  omega

theorem entry_setEntry_same (s : State) (tbl : List Buf) (fd : Int) (b : Buf)
    (hs : s.fd_to_buf = some tbl) (h0 : 0 ≤ fd) (hlt : fd.toNat < tbl.length) :
    (s.setEntry fd b).entry fd = some b := by
  have : ¬ fd < 0 := by omega
  simp [State.entry, State.setEntry, hs, this, hlt]

theorem entry_setEntry_other (s : State) (fd fd' : Int) (b : Buf)
    (h0 : 0 ≤ fd) (h0' : 0 ≤ fd') (hne : fd' ≠ fd) :
    (s.setEntry fd b).entry fd' = s.entry fd' := by
  have hn : fd.toNat ≠ fd'.toNat := by omega
  cases hs : s.fd_to_buf with
  | none => simp [State.entry, State.setEntry, hs]
  | some tbl =>
    simp [State.entry, State.setEntry, hs, List.getElem?_set_ne hn]

theorem setEntry_WF (s : State) (fd : Int) (b : Buf) (h : s.WF) (hb : b.WF) :
    (s.setEntry fd b).WF := by
  intro tbl htbl
  cases hs : s.fd_to_buf with
  | none => simp [State.setEntry, hs] at htbl
  | some tbl0 =>
    simp [State.setEntry, hs] at htbl
    obtain ⟨hlen, hall⟩ := h tbl0 hs
    subst htbl
    refine ⟨by simpa using hlen, ?_⟩
    intro x hx
    rcases List.mem_or_eq_of_mem_set hx with hx | hx
    · exact hall x hx
    · rw [hx]; exact hb

/-! ## `write` on a regular file -/

theorem realloc_memcpy_append (b : Buf) (hb : b.WF) (bytes : List Byte) :
    ∃ blk, realloc b.data (b.len + bytes.length) = some blk ∧
      memcpy blk b.len bytes bytes.length = (b.data.getD []).take b.len ++ bytes := by
  refine ⟨_, rfl, ?_⟩
  unfold Buf.WF at hb
  cases hd : b.data with
  | none =>
    rw [hd] at hb
    simp only at hb
    simp [memcpy, hb]
  | some blk =>
    rw [hd] at hb
    simp only at hb
    obtain ⟨hlen, _⟩ := hb
    have h1 : List.take (b.len + bytes.length) blk = blk :=
      List.take_of_length_le (by omega)
    simp only [memcpy, Option.getD_some, h1, List.take_length]
    rw [← hlen, List.take_left, List.take_length, List.drop_of_length_le (by simp)]
    simp

theorem pending_eq_of_entry (s : State) (fd : Int) (b : Buf) (h : s.entry fd = some b) :
    s.pending fd = (b.data.getD []).take b.len := by
  unfold State.pending
  rw [h]
  cases hd : b.data <;> simp [hd]

theorem len_eq_of_entry (s : State) (fd : Int) (b : Buf) (h : s.entry fd = some b) :
    s.len fd = b.len := by
  unfold State.len
  rw [h]

/-- A non-empty write to a regular file in range, on an allocated table: the call
returns `count` and replaces the entry of `fd` by the old bytes followed by the
new ones. -/
theorem write_regular (s : State) (w : World) (fd : Int) (bytes : List Byte) (tbl : List Buf)
    (hs : s.fd_to_buf = some tbl) (hwf : s.WF) (h0 : 0 ≤ fd) (h1 : fd < kMaxFd)
    (hne : bytes ≠ []) (hst : w.fstat w.nstat fd = ⟨0, true⟩) :
    write s w fd (some bytes) bytes.length =
      .ret (bytes.length : Int)
        (s.setEntry fd ⟨some (s.pending fd ++ bytes), s.len fd + bytes.length⟩)
        { w with nstat := w.nstat + 1 } := by
  obtain ⟨b, hb, _, hbwf⟩ := entry_isSome_of_WF s tbl fd hs hwf h0 h1
  obtain ⟨blk, hre, hcp⟩ := realloc_memcpy_append b hbwf bytes
  have hcount : bytes.length ≠ 0 := by
    intro h; exact hne (List.length_eq_zero.mp h)
  unfold write
  rw [maybe_init_of_some s w tbl hs]
  simp only [h1, not_true_eq_false, if_false, hcount, hst, ne_eq, hb, hre, hcp,
    pending_eq_of_entry s fd b hb, len_eq_of_entry s fd b hb]
  simp

theorem write_maybe_init (s : State) (w : World) (fd : Int) (buf : Option (List Byte))
    (count : Nat) : write (maybe_init s w) w fd buf count = write s w fd buf count := by
  unfold write
  rw [maybe_init_idem]

theorem pending_length (s : State) (fd : Int) (hwf : s.WF) :
    (s.pending fd).length = s.len fd := by
  cases he : s.entry fd with
  | none => simp [State.pending, State.len, he]
  | some b =>
    rw [pending_eq_of_entry s fd b he, len_eq_of_entry s fd b he]
    cases hs : s.fd_to_buf with
    | none => rw [entry_of_none s fd hs] at he; cases he
    | some tbl =>
      have hmem : b ∈ tbl := by
        unfold State.entry at he
        rw [hs] at he
        simp only at he
        split at he
        · cases he
        · exact List.getElem?_mem he
      have hb := (hwf tbl hs).2 b hmem
      unfold Buf.WF at hb
      cases hd : b.data with
      | none => rw [hd] at hb; simp only at hb; simp [hb]
      | some blk => rw [hd] at hb; simp only at hb; simp [hb.1]

theorem write_regular_post (s : State) (fd : Int) (bytes : List Byte) (tbl : List Buf)
    (hs : s.fd_to_buf = some tbl) (hwf : s.WF) (h0 : 0 ≤ fd) (h1 : fd < kMaxFd)
    (hne : bytes ≠ []) :
    let s1 := s.setEntry fd ⟨some (s.pending fd ++ bytes), s.len fd + bytes.length⟩
    s1.WF ∧ s1.pending fd = s.pending fd ++ bytes ∧ s1.len fd = s.len fd + bytes.length := by
  intro s1
  have hpl := pending_length s fd hwf
  have hlt : fd.toNat < tbl.length := by
    rw [(hwf tbl hs).1, kMaxFd_toNat]; unfold kMaxFd at h1; omega
  have hpos : 0 < bytes.length := List.length_pos.mpr hne
  have he : s1.entry fd = some ⟨some (s.pending fd ++ bytes), s.len fd + bytes.length⟩ :=
    entry_setEntry_same s tbl fd _ hs h0 hlt
  refine ⟨?_, ?_, ?_⟩
  · apply setEntry_WF s fd _ hwf
    simp only [Buf.WF, List.length_append, hpl, true_and]
    omega
  · rw [pending_eq_of_entry s1 fd _ he]
    simp only [Option.getD_some]
    apply List.take_of_length_le
    simp [hpl]
  · rw [len_eq_of_entry s1 fd _ he]

theorem setEntry_isSome (s : State) (fd : Int) (b : Buf) (tbl : List Buf)
    (hs : s.fd_to_buf = some tbl) : (s.setEntry fd b).fd_to_buf = some (tbl.set fd.toNat b) := by
  simp [State.setEntry, hs]

theorem run_cons_ret (fuel : Nat) (s : State) (w : World) (c : Call) (cs : List Call)
    (v : Option Int) (s1 : State) (w1 : World) (h : step fuel s w c = .ret v s1 w1) :
    run fuel s w (c :: cs) = (run fuel s1 w1 cs).mapValue (fun vs => v :: vs) := by
  simp only [run, h]

theorem write_sequence_aux (fuel : Nat) (fd : Int) (h0 : 0 ≤ fd) (h1 : fd < kMaxFd)
    (ws : List (List Byte)) (hne : ∀ b ∈ ws, b ≠ []) :
    ∀ (s : State) (w : World), s.WF → (∀ k, w.fstat k fd = ⟨0, true⟩) →
      ∃ s', run fuel s w (ws.map (fun b => Call.write fd (some b) b.length)) =
          .ret (ws.map (fun b => some (b.length : Int))) s'
            { w with nstat := w.nstat + ws.length } ∧
        s'.WF ∧ s'.pending fd = s.pending fd ++ ws.flatten ∧
        s'.len fd = s.len fd + (ws.map List.length).sum := by
  induction ws with
  | nil =>
    intro s w hwf _
    exact ⟨s, by simp [run], hwf, by simp, by simp⟩
  | cons b bs ih =>
    intro s w hwf hreg
    have hb : b ≠ [] := hne b (List.mem_cons_self _ _)
    obtain ⟨tbl, htbl⟩ := maybe_init_isSome s w
    have hwf0 := maybe_init_WF s w hwf
    have hw := write_regular (maybe_init s w) w fd b tbl htbl hwf0 h0 h1 hb (hreg _)
    rw [write_maybe_init, maybe_init_pending, maybe_init_len] at hw
    have hpost := write_regular_post (maybe_init s w) fd b tbl htbl hwf0 h0 h1 hb
    rw [maybe_init_pending, maybe_init_len] at hpost
    obtain ⟨hwf1, hp1, hl1⟩ := hpost
    obtain ⟨s', hrun, hwf', hp', hl'⟩ :=
      ih (fun x hx => hne x (List.mem_cons_of_mem _ hx)) _ { w with nstat := w.nstat + 1 }
        hwf1 hreg
    have hstep : step fuel s w (Call.write fd (some b) b.length) =
        .ret (some (b.length : Int))
          ((maybe_init s w).setEntry fd ⟨some (s.pending fd ++ b), s.len fd + b.length⟩)
          { w with nstat := w.nstat + 1 } := by
      simp only [step, hw, Outcome.mapValue]
    refine ⟨s', ?_, hwf', ?_, ?_⟩
    · rw [List.map_cons, run_cons_ret fuel s w _ _ _ _ _ hstep, hrun]
      simp only [Outcome.mapValue, List.map_cons, List.length_cons]
      congr 2
      omega
    · rw [hp', hp1]; simp
    · rw [hl', hl1]; simp; omega

/-! ## `fsync` -/

theorem maybe_init_num (s : State) (w : World) :
    (maybe_init s w).num_syncs_until_crash = s.num_syncs_until_crash := by
  unfold maybe_init
  cases s.fd_to_buf <;> cases w.env.CRASH_FAILURE_ONE_IN <;>
    cases w.env.SYNC_FAILURE_ONE_IN <;> cases w.env.CRASH_AFTER_SYNC_FAILURE <;>
    simp <;> split <;> rfl

theorem entry_countdown (s : State) (fd : Int) : s.countdown.entry fd = s.entry fd := by
  unfold State.countdown
  split <;> rfl

theorem entry_arm (s : State) (fd : Int) : s.arm.entry fd = s.entry fd := by
  unfold State.arm
  split <;> rfl

theorem draw_selects_iff (n : Int) (w : World) :
    (draw_selects n w).1 = true ↔ 0 < n ∧ (w.random w.nrand : Int) % n = 0 := by
  unfold draw_selects
  by_cases h : n > 0 <;> simp [h]

theorem draw_selects_log (n : Int) (w : World) : (draw_selects n w).2.log = w.log := by
  unfold draw_selects
  split <;> rfl

theorem draw_selects_of_nonpos (n : Int) (w : World) (h : n ≤ 0) :
    draw_selects n w = (false, w) := by
  unfold draw_selects
  have : ¬ n > 0 := by omega
  simp [this]

/-- A sync on which the countdown expires: source lines 110-113. -/
theorem fsync_expire (fuel : Nat) (s : State) (w : World) (fd : Int)
    (h : s.num_syncs_until_crash = 1) : fsync fuel s w fd = .killed w := by
  unfold fsync
  simp [maybe_init_num, h]

/-- A sync on which the countdown does not expire continues at source line 116
with the countdown decremented if it was positive. -/
theorem fsync_no_expire (fuel : Nat) (s : State) (w : World) (fd : Int)
    (h : s.num_syncs_until_crash ≠ 1) :
    fsync fuel s w fd = fsync_body fuel (maybe_init s w).countdown w fd := by
  unfold fsync State.countdown
  simp only [maybe_init_num]
  by_cases hpos : s.num_syncs_until_crash > 0
  · have : ¬ s.num_syncs_until_crash - 1 = 0 := by omega
    simp [hpos, this]
  · simp [hpos]

theorem fsync_body_empty (fuel : Nat) (s : State) (w : World) (fd : Int) (b : Buf)
    (he : s.entry fd = some b) (hd : b.data = none) :
    fsync_body fuel s w fd = .ret 0 s w := by
  unfold fsync_body
  simp [he, hd]

theorem fsync_body_crash (fuel : Nat) (s : State) (w : World) (fd : Int) (b : Buf)
    (blk : List Byte) (he : s.entry fd = some b) (hd : b.data = some blk)
    (hc : (draw_selects s.crash_failure_one_in w).1 = true) :
    fsync_body fuel s w fd = .killed (draw_selects s.crash_failure_one_in w).2 := by
  unfold fsync_body
  simp [he, hd, State.setEntry, hc]

theorem fsync_body_fail (fuel : Nat) (s : State) (w : World) (fd : Int) (b : Buf)
    (blk : List Byte) (he : s.entry fd = some b) (hd : b.data = some blk)
    (hc : (draw_selects s.crash_failure_one_in w).1 = false)
    (hf : (draw_selects s.sync_failure_one_in (draw_selects s.crash_failure_one_in w).2).1
      = true) :
    fsync_body fuel s w fd =
      .ret (-1) (s.setEntry fd ⟨none, 0⟩).arm
        (draw_selects s.sync_failure_one_in (draw_selects s.crash_failure_one_in w).2).2 := by
  unfold fsync_body State.arm
  simp [he, hd, State.setEntry, hc, hf]

theorem allEmpty_isSome (s : State) (h : s.allEmpty) : ∃ tbl, s.fd_to_buf = some tbl := by
  obtain ⟨b, hb, _⟩ := h 0 (by decide) (by decide)
  cases hs : s.fd_to_buf with
  | none => rw [entry_of_none s 0 hs] at hb; cases hb
  | some tbl => exact ⟨tbl, rfl⟩

/-- A sync of an in-range descriptor on a table without blocks, the countdown not
expiring: returns 0 and only the countdown changes. -/
theorem fsync_allEmpty (fuel : Nat) (s : State) (w : World) (fd : Int) (h : s.allEmpty)
    (h0 : 0 ≤ fd) (h1 : fd < kMaxFd) (hn : s.num_syncs_until_crash ≠ 1) :
    fsync fuel s w fd = .ret 0 s.countdown w := by
  obtain ⟨tbl, hs⟩ := allEmpty_isSome s h
  obtain ⟨b, hb, hd⟩ := h fd h0 h1
  rw [fsync_no_expire fuel s w fd hn, maybe_init_of_some s w tbl hs]
  exact fsync_body_empty fuel _ w fd b (by rw [entry_countdown]; exact hb) hd

theorem run_syncs_allEmpty (fuel : Nat) (fds : List Int) :
    ∀ (s : State) (w : World), s.allEmpty →
      (fds.length : Int) < s.num_syncs_until_crash →
      (∀ x ∈ fds, 0 ≤ x ∧ x < kMaxFd) →
      run fuel s w (fds.map Call.fsync) =
        .ret (List.replicate fds.length (some 0))
          { s with num_syncs_until_crash := s.num_syncs_until_crash - fds.length } w := by
  induction fds with
  | nil => intro s w _ _ _; simp [run]
  | cons x xs ih =>
    intro s w hall hlt hfds
    simp only [List.length_cons, Nat.cast_add, Nat.cast_one] at hlt
    have hx := hfds x (List.mem_cons_self _ _)
    have hstep : step fuel s w (Call.fsync x) = .ret (some 0) s.countdown w := by
      simp only [step, fsync_allEmpty fuel s w x hall hx.1 hx.2 (by omega), Outcome.mapValue]
    have hpos : s.num_syncs_until_crash > 0 := by omega
    have hcd : s.countdown =
        { s with num_syncs_until_crash := s.num_syncs_until_crash - 1 } := by
      simp [State.countdown, hpos]
    have hall' : s.countdown.allEmpty := by
      intro fd h0 h1
      rw [entry_countdown]
      exact hall fd h0 h1
    have hrec := ih s.countdown w hall' (by rw [hcd]; simp only; omega)
      (fun y hy => hfds y (List.mem_cons_of_mem _ hy))
    rw [List.map_cons, run_cons_ret fuel s w _ _ _ _ _ hstep, hrec]
    simp only [Outcome.mapValue, List.length_cons, List.replicate_succ, hcd, Nat.cast_add,
      Nat.cast_one]
    congr 2
    omega

/-- C2: from any state that satisfies the representation invariant of the table
(every state reached from the initial one does, see `run_WF`), a sequence of
non-empty writes to a regular-file descriptor `fd` with `0 ≤ fd < 1024` and no sync
in between returns, for each write, its full byte count; afterwards the pending
bytes of `fd` are the previous ones followed by `w1 ++ ... ++ wn`, the field `len`
has grown by the sum of the lengths, and the log of calls of the real `write` is
what it was: the primitive was never invoked. -/
theorem write_sequence_is_buffered (fuel : Nat) (s : State) (w : World) (fd : Int)
    (ws : List (List Byte)) (hwf : s.WF) (h0 : 0 ≤ fd) (h1 : fd < kMaxFd)
    (hne : ∀ b ∈ ws, b ≠ []) (hreg : ∀ k, w.fstat k fd = ⟨0, true⟩) :
    ∃ s' w', run fuel s w (ws.map (fun b => Call.write fd (some b) b.length)) =
        .ret (ws.map (fun b => some (b.length : Int))) s' w' ∧
      s'.pending fd = s.pending fd ++ ws.flatten ∧
      s'.len fd = s.len fd + (ws.map List.length).sum ∧
      w'.log = w.log := by
  obtain ⟨s', hrun, _, hp, hl⟩ := write_sequence_aux fuel fd h0 h1 ws hne s w hwf hreg
  exact ⟨s', _, hrun, hp, hl, rfl⟩

/-- Witness of C2: two writes, `"A"` and `"BC"`, to descriptor 3 from the initial
state. -/
theorem write_sequence_is_buffered_witness :
    State.initial.WF ∧
    ∃ s' w', run 0 State.initial (exampleWorld ⟨none, none, none⟩ true 0 1)
        ([[65], [66, 67]].map (fun b => Call.write 3 (some b) b.length)) =
        .ret ([[65], [66, 67]].map (fun b => some (b.length : Int))) s' w' ∧
      s'.pending 3 = State.initial.pending 3 ++ [[65], [66, 67]].flatten ∧
      s'.len 3 = State.initial.len 3 + ([[65], [66, 67]].map List.length).sum ∧
      w'.log = (exampleWorld ⟨none, none, none⟩ true 0 1).log :=
  ⟨State.initial_WF,
    write_sequence_is_buffered 0 State.initial (exampleWorld ⟨none, none, none⟩ true 0 1) 3
      [[65], [66, 67]] State.initial_WF (by decide) (by decide) (by decide) (fun _ => rfl)⟩

theorem entry_initial_init (w : World) (fd : Int) (h0 : 0 ≤ fd) (h1 : fd < kMaxFd) :
    (maybe_init State.initial w).entry fd = some ⟨none, 0⟩ :=
  maybe_init_entry_of_none State.initial w fd rfl h0 h1

theorem maybe_init_initial_config (w : World) (hsf : w.env.SYNC_FAILURE_ONE_IN = some 1)
    (hcf : ∀ v, w.env.CRASH_FAILURE_ONE_IN = some v → v ≤ 0) :
    (maybe_init State.initial w).sync_failure_one_in = 1 ∧
    (maybe_init State.initial w).crash_failure_one_in ≤ 0 := by
  unfold maybe_init
  simp only [State.initial, hsf]
  cases hc : w.env.CRASH_FAILURE_ONE_IN with
  | none =>
    cases w.env.CRASH_AFTER_SYNC_FAILURE
    · simp
    · simp only; split <;> simp
  | some v =>
    have := hcf v hc
    cases w.env.CRASH_AFTER_SYNC_FAILURE
    · simp [this]
    · simp only; split <;> simp [this]

theorem maybe_init_initial_flag (w : World) (hflag : w.env.CRASH_AFTER_SYNC_FAILURE = some 1) :
    (maybe_init State.initial w).crash_after_sync_failure = true := by
  unfold maybe_init
  simp only [State.initial, hflag]
  cases w.env.CRASH_FAILURE_ONE_IN <;> cases w.env.SYNC_FAILURE_ONE_IN <;> simp

/-- C3 as amended: from the initial state, with `SYNC_FAILURE_ONE_IN=1`,
crash-on-sync disabled (variable absent or not positive) and
`CRASH_AFTER_SYNC_FAILURE=1`, a non-empty write to a regular-file descriptor of the
table (`0 ≤ fd < 1024`) returns its count and the sync of that descriptor returns
`-1` (the process goes on); then, without further writes, nine sync calls on any
descriptors of the table (`0 ≤ fd < 1024`) each return `0`, and the tenth sync call,
on any descriptor whatever, ends the process by `SIGKILL`.  The real `write` is
never called. -/
theorem sync_failure_then_tenth_sync_kills (fuel : Nat) (w : World) (fd : Int)
    (bytes : List Byte) (fds : List Int) (fd10 : Int)
    (hsf : w.env.SYNC_FAILURE_ONE_IN = some 1)
    (hcf : ∀ v, w.env.CRASH_FAILURE_ONE_IN = some v → v ≤ 0)
    (hflag : w.env.CRASH_AFTER_SYNC_FAILURE = some 1)
    (h0 : 0 ≤ fd) (h1 : fd < kMaxFd) (hne : bytes ≠ [])
    (hreg : w.fstat w.nstat fd = ⟨0, true⟩)
    (hlen : fds.length = 9) (hfds : ∀ x ∈ fds, 0 ≤ x ∧ x < kMaxFd) :
    ∃ s1 w1 s2 w2 s3 w3,
      write State.initial w fd (some bytes) bytes.length = .ret (bytes.length : Int) s1 w1 ∧
      s1.crash_after_sync_failure = true ∧
      fsync fuel s1 w1 fd = .ret (-1) s2 w2 ∧
      run fuel s2 w2 (fds.map Call.fsync) = .ret (List.replicate 9 (some 0)) s3 w3 ∧
      fsync fuel s3 w3 fd10 = .killed w3 ∧
      w3.log = w.log := by
  obtain ⟨tbl, htbl⟩ := maybe_init_isSome State.initial w
  have hwf0 := maybe_init_WF State.initial w State.initial_WF
  obtain ⟨hsf0, hcf0⟩ := maybe_init_initial_config w hsf hcf
  have hflag0 := maybe_init_initial_flag w hflag
  have hnum0 : (maybe_init State.initial w).num_syncs_until_crash = -1 := by
    rw [maybe_init_num]; rfl
  have hlt : fd.toNat < tbl.length := by
    rw [(hwf0 tbl htbl).1, kMaxFd_toNat]; unfold kMaxFd at h1; omega
  have hw := write_regular (maybe_init State.initial w) w fd bytes tbl htbl hwf0 h0 h1 hne hreg
  rw [write_maybe_init] at hw
  -- the state after the write
  obtain ⟨blk1, hblk1⟩ : ∃ blk1, blk1 = (maybe_init State.initial w).pending fd ++ bytes :=
    ⟨_, rfl⟩
  obtain ⟨b1, hb1⟩ : ∃ b1 : Buf, b1 =
      ⟨some blk1, (maybe_init State.initial w).len fd + bytes.length⟩ := ⟨_, rfl⟩
  obtain ⟨s1, hs1⟩ : ∃ s1, s1 = (maybe_init State.initial w).setEntry fd b1 := ⟨_, rfl⟩
  rw [← hblk1, ← hb1, ← hs1] at hw
  have hb1d : b1.data = some blk1 := by rw [hb1]
  have hs1tbl : s1.fd_to_buf = some (tbl.set fd.toNat b1) := by
    rw [hs1]; exact setEntry_isSome _ fd _ tbl htbl
  have he1 : s1.entry fd = some b1 := by
    rw [hs1]; exact entry_setEntry_same _ tbl fd _ htbl h0 hlt
  have hcfg1 : s1.sync_failure_one_in = 1 ∧ s1.crash_failure_one_in ≤ 0 ∧
      s1.num_syncs_until_crash = -1 ∧ s1.crash_after_sync_failure = true := by
    rw [hs1]; exact ⟨hsf0, hcf0, hnum0, hflag0⟩
  obtain ⟨hsf1, hcf1, hnum1, hflag1⟩ := hcfg1
  have hcd1 : s1.countdown = s1 := by simp [State.countdown, hnum1]
  -- the failing sync
  have hcrash : draw_selects s1.crash_failure_one_in { w with nstat := w.nstat + 1 } =
      (false, { w with nstat := w.nstat + 1 }) := draw_selects_of_nonpos _ _ hcf1
  have hfail : (draw_selects s1.sync_failure_one_in
      (draw_selects s1.crash_failure_one_in { w with nstat := w.nstat + 1 }).2).1 = true := by
    rw [draw_selects_iff, hsf1]
    exact ⟨by decide, Int.emod_one _⟩
  have hsync : fsync fuel s1 { w with nstat := w.nstat + 1 } fd =
      .ret (-1) (s1.setEntry fd ⟨none, 0⟩).arm
        (draw_selects s1.sync_failure_one_in
          (draw_selects s1.crash_failure_one_in { w with nstat := w.nstat + 1 }).2).2 := by
    rw [fsync_no_expire fuel s1 _ fd (by rw [hnum1]; decide),
      maybe_init_of_some s1 _ _ hs1tbl, hcd1]
    exact fsync_body_fail fuel s1 _ fd b1 blk1 he1 hb1d (by rw [hcrash]) hfail
  -- the state after the failing sync
  have harm : (s1.setEntry fd ⟨none, 0⟩).arm =
      { s1.setEntry fd ⟨none, 0⟩ with num_syncs_until_crash := 10 } := by
    have : (s1.setEntry fd ⟨none, 0⟩).num_syncs_until_crash = -1 := hnum1
    simp [State.arm, this]
  have hall : (s1.setEntry fd ⟨none, 0⟩).arm.allEmpty := by
    intro x hx0 hx1
    rw [entry_arm]
    by_cases hx : x = fd
    · subst hx
      exact ⟨_, entry_setEntry_same s1 _ x _ hs1tbl hx0 (by simpa using hlt), rfl⟩
    · rw [entry_setEntry_other s1 fd x _ h0 hx0 hx, hs1,
        entry_setEntry_other _ fd x _ h0 hx0 hx]
      exact ⟨_, entry_initial_init w x hx0 hx1, rfl⟩
  have hnum2 : (s1.setEntry fd ⟨none, 0⟩).arm.num_syncs_until_crash = 10 := by rw [harm]
  have hrun := run_syncs_allEmpty fuel fds (s1.setEntry fd ⟨none, 0⟩).arm
    (draw_selects s1.sync_failure_one_in
      (draw_selects s1.crash_failure_one_in { w with nstat := w.nstat + 1 }).2).2 hall
    (by rw [hnum2, hlen]; decide) hfds
  rw [hlen] at hrun
  refine ⟨s1, _, _, _, _, _, hw, hflag1, hsync, hrun, ?_, ?_⟩
  · exact fsync_expire fuel _ _ fd10 (by simp only [hnum2, hlen]; decide)
  · rw [draw_selects_log, draw_selects_log]

/-- Witness of C3: `"A"` written to descriptor 3, nine syncs on descriptors 0 to 8,
the tenth on descriptor 4000. -/
theorem sync_failure_then_tenth_sync_kills_witness :
    ∃ s1 w1 s2 w2 s3 w3,
      write State.initial (exampleWorld ⟨none, some 1, some 1⟩ true 7 1) 3 (some [65])
        [(65 : Byte)].length = .ret (([(65 : Byte)].length : Nat) : Int) s1 w1 ∧
      s1.crash_after_sync_failure = true ∧
      fsync 0 s1 w1 3 = .ret (-1) s2 w2 ∧
      run 0 s2 w2 ([0, 1, 2, 3, 4, 5, 6, 7, 8].map Call.fsync) =
        .ret (List.replicate 9 (some 0)) s3 w3 ∧
      fsync 0 s3 w3 4000 = .killed w3 ∧
      w3.log = (exampleWorld ⟨none, some 1, some 1⟩ true 7 1).log :=
  sync_failure_then_tenth_sync_kills 0 (exampleWorld ⟨none, some 1, some 1⟩ true 7 1) 3 [65]
    [0, 1, 2, 3, 4, 5, 6, 7, 8] 4000 rfl (by intro v h; cases h) rfl (by decide) (by decide)
    (by decide) rfl rfl (by decide)

theorem entry_some_range (s : State) (fd : Int) (b : Buf) (h : s.entry fd = some b) :
    ∃ tbl, s.fd_to_buf = some tbl ∧ 0 ≤ fd ∧ fd.toNat < tbl.length := by
  cases hs : s.fd_to_buf with
  | none => rw [entry_of_none s fd hs] at h; cases h
  | some tbl =>
    refine ⟨tbl, rfl, ?_⟩
    unfold State.entry at h
    rw [hs] at h
    simp only at h
    split at h
    · cases h
    · rename_i hneg
      obtain ⟨hlt, _⟩ := List.getElem?_eq_some.mp h
      exact ⟨by omega, hlt⟩

theorem pending_ne_nil (s : State) (fd : Int) (h : s.pending fd ≠ []) :
    ∃ b blk, s.entry fd = some b ∧ b.data = some blk := by
  cases he : s.entry fd with
  | none => simp [State.pending, he] at h
  | some b =>
    cases hd : b.data with
    | none => simp [State.pending, he, hd] at h
    | some blk => exact ⟨b, blk, rfl, hd⟩

theorem countdown_crash_failure_one_in (s : State) :
    s.countdown.crash_failure_one_in = s.crash_failure_one_in := by
  unfold State.countdown
  split <;> rfl

theorem countdown_sync_failure_one_in (s : State) :
    s.countdown.sync_failure_one_in = s.sync_failure_one_in := by
  unfold State.countdown
  split <;> rfl

theorem countdown_fd_to_buf (s : State) : s.countdown.fd_to_buf = s.fd_to_buf := by
  unfold State.countdown
  split <;> rfl

theorem arm_fd_to_buf (s : State) : s.arm.fd_to_buf = s.fd_to_buf := by
  unfold State.arm
  split <;> rfl

theorem pending_congr (s t : State) (h : s.fd_to_buf = t.fd_to_buf) (fd : Int) :
    s.pending fd = t.pending fd := by
  simp only [State.pending, State.entry, h]

/-- C4: with crash-on-sync denominator 1, whatever `random()` yields, a sync of a
descriptor whose Pending Buffer is not empty ends the process by `SIGKILL`, and the
log of calls of the real `write` is what it was before the sync: no buffered byte
reached the file. -/
theorem crash_on_sync_one_always_kills (fuel : Nat) (s : State) (w : World) (fd : Int)
    (hcf : s.crash_failure_one_in = 1) (hp : s.pending fd ≠ []) :
    ∃ w', fsync fuel s w fd = .killed w' ∧ w'.log = w.log ∧
      delivered w'.log fd = delivered w.log fd := by
  obtain ⟨b, blk, he, hd⟩ := pending_ne_nil s fd hp
  obtain ⟨tbl, hs, _, _⟩ := entry_some_range s fd b he
  by_cases hn : s.num_syncs_until_crash = 1
  · exact ⟨w, fsync_expire fuel s w fd hn, rfl, rfl⟩
  · have hsel : (draw_selects s.countdown.crash_failure_one_in w).1 = true := by
      rw [draw_selects_iff, countdown_crash_failure_one_in, hcf]
      exact ⟨by decide, Int.emod_one _⟩
    have hlog := draw_selects_log s.countdown.crash_failure_one_in w
    refine ⟨_, ?_, hlog, by rw [hlog]⟩
    rw [fsync_no_expire fuel s w fd hn, maybe_init_of_some s w tbl hs]
    exact fsync_body_crash fuel _ w fd b blk (by rw [entry_countdown]; exact he) hd hsel

/-- Witness of C4: descriptor 3 holds `"A"`, the draw is 12345. -/
theorem crash_on_sync_one_always_kills_witness :
    (exampleState 1 (-1) (-1) [65]).pending 3 ≠ [] ∧
    ∃ w', fsync 0 (exampleState 1 (-1) (-1) [65])
        (exampleWorld ⟨none, none, none⟩ true 12345 1) 3 = .killed w' ∧
      w'.log = (exampleWorld ⟨none, none, none⟩ true 12345 1).log ∧
      delivered w'.log 3 = delivered (exampleWorld ⟨none, none, none⟩ true 12345 1).log 3 :=
  ⟨by decide,
    crash_on_sync_one_always_kills 0 (exampleState 1 (-1) (-1) [65])
      (exampleWorld ⟨none, none, none⟩ true 12345 1) 3 rfl (by decide)⟩

theorem draw_selects_snd_random (n : Int) (w : World) :
    (draw_selects n w).2.random = w.random := by
  unfold draw_selects
  split <;> rfl

theorem draw_selects_snd_nrand (n : Int) (w : World) :
    (draw_selects n w).2.nrand = if 0 < n then w.nrand + 1 else w.nrand := by
  unfold draw_selects
  split <;> rfl

/-- A sync of a descriptor whose entry holds no block never calls the real `write`:
it is killed by the countdown or returns 0, in the same world. -/
theorem fsync_no_block_world (fuel : Nat) (s : State) (w : World) (fd : Int) (b : Buf)
    (he : s.entry fd = some b) (hd : b.data = none) :
    (fsync fuel s w fd).world = w := by
  obtain ⟨tbl, hs, _, _⟩ := entry_some_range s fd b he
  by_cases hn : s.num_syncs_until_crash = 1
  · rw [fsync_expire fuel s w fd hn]; rfl
  · rw [fsync_no_expire fuel s w fd hn, maybe_init_of_some s w tbl hs,
      fsync_body_empty fuel _ w fd b (by rw [entry_countdown]; exact he) hd]
    rfl

/-- C5: a sync of a descriptor whose Pending Buffer is not empty, on which the
countdown does not expire, the crash-on-sync condition does not hold, and the
sync-failure denominator `N` is positive with the next draw a multiple of `N`,
returns `-1` (the process is not ended), does not call the real `write`, and leaves
the entry of the descriptor empty (`data = NULL`, `len = 0`); a later sync of the
descriptor, in any world, again makes no call of the real `write`. -/
theorem sync_failure_returns_error_and_drops (fuel : Nat) (s : State) (w : World) (fd : Int)
    (hp : s.pending fd ≠ [])
    (hn : s.num_syncs_until_crash ≠ 1)
    (hc : ¬ (0 < s.crash_failure_one_in ∧
      (w.random w.nrand : Int) % s.crash_failure_one_in = 0))
    (hsf : 0 < s.sync_failure_one_in)
    (hsel : (w.random (if 0 < s.crash_failure_one_in then w.nrand + 1 else w.nrand) : Int)
      % s.sync_failure_one_in = 0) :
    ∃ s' w', fsync fuel s w fd = .ret (-1) s' w' ∧
      w'.log = w.log ∧
      s'.entry fd = some ⟨none, 0⟩ ∧
      s'.pending fd = [] ∧
      ∀ fuel2 w2, (fsync fuel2 s' w2 fd).world = w2 := by
  obtain ⟨b, blk, he, hd⟩ := pending_ne_nil s fd hp
  obtain ⟨tbl, hs, h0, hlt⟩ := entry_some_range s fd b he
  have hcrash : (draw_selects s.countdown.crash_failure_one_in w).1 = false := by
    rw [← Bool.not_eq_true, draw_selects_iff, countdown_crash_failure_one_in]
    exact hc
  have hfail : (draw_selects s.countdown.sync_failure_one_in
      (draw_selects s.countdown.crash_failure_one_in w).2).1 = true := by
    rw [draw_selects_iff, draw_selects_snd_random, draw_selects_snd_nrand,
      countdown_crash_failure_one_in, countdown_sync_failure_one_in]
    exact ⟨hsf, hsel⟩
  have htbl : s.countdown.fd_to_buf = some tbl := by rw [countdown_fd_to_buf]; exact hs
  have hent : (s.countdown.setEntry fd ⟨none, 0⟩).arm.entry fd = some ⟨none, 0⟩ := by
    rw [entry_arm]
    exact entry_setEntry_same _ tbl fd _ htbl h0 hlt
  refine ⟨(s.countdown.setEntry fd ⟨none, 0⟩).arm,
    (draw_selects s.countdown.sync_failure_one_in
      (draw_selects s.countdown.crash_failure_one_in w).2).2, ?_, ?_, hent, ?_, ?_⟩
  · rw [fsync_no_expire fuel s w fd hn, maybe_init_of_some s w tbl hs]
    exact fsync_body_fail fuel _ w fd b blk (by rw [entry_countdown]; exact he) hd hcrash hfail
  · rw [draw_selects_log, draw_selects_log]
  · rw [pending_eq_of_entry _ fd _ hent]; rfl
  · intro fuel2 w2
    exact fsync_no_block_world fuel2 _ w2 fd _ hent rfl

/-- Witness of C5: descriptor 3 holds `"A"`, crash-on-sync is disabled, the
sync-failure denominator is 4 and the draw is 8. -/
theorem sync_failure_returns_error_and_drops_witness :
    (exampleState (-1) 4 (-1) [65]).pending 3 ≠ [] ∧
    ∃ s' w', fsync 0 (exampleState (-1) 4 (-1) [65])
        (exampleWorld ⟨none, none, none⟩ true 8 1) 3 = .ret (-1) s' w' ∧
      w'.log = (exampleWorld ⟨none, none, none⟩ true 8 1).log ∧
      s'.entry 3 = some ⟨none, 0⟩ ∧
      s'.pending 3 = [] ∧
      ∀ fuel2 w2, (fsync fuel2 s' w2 3).world = w2 :=
  ⟨by decide,
    sync_failure_returns_error_and_drops 0 (exampleState (-1) 4 (-1) [65])
      (exampleWorld ⟨none, none, none⟩ true 8 1) 3 (by decide) (by decide) (by decide)
      (by decide) (by decide)⟩

theorem entry_no_block_of_pending_nil (s : State) (fd : Int) (hwf : s.WF) (b : Buf)
    (he : s.entry fd = some b) (hp : s.pending fd = []) : b.data = none := by
  obtain ⟨tbl, hs, _, _⟩ := entry_some_range s fd b he
  have hmem : b ∈ tbl := by
    unfold State.entry at he
    rw [hs] at he
    simp only at he
    split at he
    · cases he
    · exact List.getElem?_mem he
  have hb := (hwf tbl hs).2 b hmem
  have hlen := pending_length s fd hwf
  rw [hp, len_eq_of_entry s fd b he] at hlen
  unfold Buf.WF at hb
  cases hd : b.data with
  | none => rfl
  | some blk =>
    rw [hd] at hb
    simp only at hb
    simp only [List.length_nil] at hlen
    omega

/-- C6 as amended: in a state that satisfies the representation invariant and in
which the countdown does not expire on this call (`num_syncs_until_crash ≠ 1`), a
sync of a descriptor of the table whose Pending Buffer holds no bytes returns 0 in
an unchanged world (no call of the real `write`) and leaves the table as it is, so
the pending bytes of every descriptor are unchanged; only the countdown, when armed,
is decremented.  The state after the call satisfies the invariant and the
descriptor is still empty, so the statement applies to the next empty sync as
well, as long as the countdown does not expire. -/
theorem empty_sync_returns_zero (fuel : Nat) (s : State) (w : World) (fd : Int)
    (hwf : s.WF) (h0 : 0 ≤ fd) (h1 : fd < kMaxFd) (hp : s.pending fd = [])
    (hn : s.num_syncs_until_crash ≠ 1) :
    ∃ s', fsync fuel s w fd = .ret 0 s' w ∧
      s'.fd_to_buf = (maybe_init s w).fd_to_buf ∧
      (∀ x, s'.pending x = s.pending x) ∧
      s'.WF := by
  obtain ⟨tbl, hs⟩ := maybe_init_isSome s w
  have hwf0 := maybe_init_WF s w hwf
  obtain ⟨b, he, _, _⟩ := entry_isSome_of_WF _ tbl fd hs hwf0 h0 h1
  have hd : b.data = none :=
    entry_no_block_of_pending_nil _ fd hwf0 b he (by rw [maybe_init_pending]; exact hp)
  refine ⟨(maybe_init s w).countdown, ?_, countdown_fd_to_buf _, ?_, ?_⟩
  · rw [fsync_no_expire fuel s w fd hn]
    exact fsync_body_empty fuel _ w fd b (by rw [entry_countdown]; exact he) hd
  · intro x
    rw [pending_congr _ _ (countdown_fd_to_buf _) x, maybe_init_pending]
  · intro t ht
    rw [countdown_fd_to_buf] at ht
    exact hwf0 t ht

/-- Witness of C6 as amended: the first sync of descriptor 3 from the initial
state. -/
theorem empty_sync_returns_zero_witness :
    State.initial.WF ∧ State.initial.pending 3 = [] ∧
    ∃ s', fsync 0 State.initial (exampleWorld ⟨none, none, none⟩ true 0 1) 3 =
        .ret 0 s' (exampleWorld ⟨none, none, none⟩ true 0 1) ∧
      s'.fd_to_buf =
        (maybe_init State.initial (exampleWorld ⟨none, none, none⟩ true 0 1)).fd_to_buf ∧
      (∀ x, s'.pending x = State.initial.pending x) ∧
      s'.WF :=
  ⟨State.initial_WF, rfl,
    empty_sync_returns_zero 0 State.initial (exampleWorld ⟨none, none, none⟩ true 0 1) 3
      State.initial_WF (by decide) (by decide) rfl (by decide)⟩

/-- C6 as stated fails.  With `SYNC_FAILURE_ONE_IN=1` and
`CRASH_AFTER_SYNC_FAILURE=1`, in the state reached from the initial one by a write of
`"A"` to descriptor 3, a failed sync of it and nine further syncs, the flag is on,
descriptor 5 has no pending bytes and the countdown is 1; the sync of descriptor 5
then ends the process by `SIGKILL` instead of returning 0.  And descriptor 1024,
which has no pending bytes either, is outside the table: its sync as the first call
of the process indexes the table at 1024 and does not return 0 in the model. -/
theorem empty_sync_killed_by_countdown :
    ((run 0 State.initial (exampleWorld ⟨none, some 1, some 1⟩ true 0 1)
        ([Call.write 3 (some [65]) 1, Call.fsync 3] ++
          List.replicate 9 (Call.fsync 5))).state.map
            (fun s => (s.crash_after_sync_failure, s.pending 5, s.num_syncs_until_crash)))
      = some (true, [], 1) ∧
    (run 0 State.initial (exampleWorld ⟨none, some 1, some 1⟩ true 0 1)
        ([Call.write 3 (some [65]) 1, Call.fsync 3] ++
          List.replicate 9 (Call.fsync 5) ++ [Call.fsync 5])).isKilled = true ∧
    State.initial.pending 1024 = [] ∧
    (fsync 0 State.initial (exampleWorld ⟨none, none, none⟩ true 0 1) 1024).isUndefined
      = true ∧
    (fsync 0 State.initial (exampleWorld ⟨none, none, none⟩ true 0 1) 1024).value = none := by
  decide

/-- C7 as amended: a write of `count > 0` bytes to a descriptor below the maximum
descriptor count (`fd < 1024`) that is not a regular file calls the real `write`
at once and exactly once, with the same descriptor, bytes and count, returns what
that call returned, whatever it is, and changes no table entry. -/
theorem write_nonregular_forwards (s : State) (w : World) (fd : Int) (bytes : List Byte)
    (count : Nat) (h1 : fd < kMaxFd) (hc : count ≠ 0)
    (hst : w.fstat w.nstat fd = ⟨0, false⟩) :
    ∃ s' w', write s w fd (some bytes) count =
        .ret (w.libc w.log.length fd bytes count) s' w' ∧
      w'.log = w.log ++ [⟨fd, bytes, count, w.libc w.log.length fd bytes count⟩] ∧
      s' = maybe_init s w ∧
      ∀ x, s'.pending x = s.pending x := by
  refine ⟨maybe_init s w, (libc_write { w with nstat := w.nstat + 1 } fd bytes count).2,
    ?_, ?_, rfl, fun x => maybe_init_pending s w x⟩
  · unfold write libc_write
    simp only [h1, not_true_eq_false, if_false, hc, hst, ne_eq, if_true]
  · rfl

/-- Witness of C7 as amended: two bytes written to descriptor 4, a socket, while the
real `write` accepts one byte per call: the short count 1 is returned as it is. -/
theorem write_nonregular_forwards_witness :
    ∃ s' w', write State.initial (exampleWorld ⟨none, none, none⟩ false 0 1) 4
        (some [65, 66]) 2 =
        .ret ((exampleWorld ⟨none, none, none⟩ false 0 1).libc
          (exampleWorld ⟨none, none, none⟩ false 0 1).log.length 4 [65, 66] 2) s' w' ∧
      w'.log = (exampleWorld ⟨none, none, none⟩ false 0 1).log ++
        [⟨4, [65, 66], 2, (exampleWorld ⟨none, none, none⟩ false 0 1).libc
          (exampleWorld ⟨none, none, none⟩ false 0 1).log.length 4 [65, 66] 2⟩] ∧
      s' = maybe_init State.initial (exampleWorld ⟨none, none, none⟩ false 0 1) ∧
      ∀ x, s'.pending x = State.initial.pending x :=
  write_nonregular_forwards State.initial (exampleWorld ⟨none, none, none⟩ false 0 1) 4
    [65, 66] 2 (by decide) (by decide) rfl

/-- C7 as stated fails: a write of one byte to descriptor 1024, not a regular file,
fails the assertion of source line 77; the process aborts and the real `write` is
not called. -/
theorem write_nonregular_1024_aborts :
    (write State.initial (exampleWorld ⟨none, none, none⟩ false 0 1) 1024
      (some [65]) 1).isAborted = true ∧
    (write State.initial (exampleWorld ⟨none, none, none⟩ false 0 1) 1024
      (some [65]) 1).world.log = [] := by
  decide

/-- C1, evaluation of the code at a partial write: `"AB"` is written to descriptor 3
and then synced while the real `write` accepts one byte per call.  The sync returns
0 after two calls; the second call passes the same pointer as the first with count
1, so the file receives `"AA"`, not `"AB"`. -/
theorem fsync_retry_passes_start_of_buffer :
    (run 2 State.initial (exampleWorld ⟨none, none, none⟩ true 0 1)
      [Call.write 3 (some [65, 66]) 2, Call.fsync 3]).value = some [some 2, some 0] ∧
    (run 2 State.initial (exampleWorld ⟨none, none, none⟩ true 0 1)
      [Call.write 3 (some [65, 66]) 2, Call.fsync 3]).world.log =
        [⟨3, [65, 66], 2, 1⟩, ⟨3, [65, 66], 1, 1⟩] ∧
    delivered (run 2 State.initial (exampleWorld ⟨none, none, none⟩ true 0 1)
      [Call.write 3 (some [65, 66]) 2, Call.fsync 3]).world.log 3 = [65, 65] := by
  decide

/-- C8, evaluation of the code: after `"A"` is written to descriptor 3 with
`SYNC_FAILURE_ONE_IN=1`, `fsync(3)` returns `-1`, while `fdatasync(3)` has the
same effect on the state and on the log but returns no value. -/
theorem fdatasync_returns_no_value :
    (run 0 State.initial (exampleWorld ⟨none, some 1, none⟩ true 0 1)
      [Call.write 3 (some [65]) 1, Call.fsync 3]).value = some [some 1, some (-1)] ∧
    (run 0 State.initial (exampleWorld ⟨none, some 1, none⟩ true 0 1)
      [Call.write 3 (some [65]) 1, Call.fdatasync 3]).value = some [some 1, none] ∧
    (run 0 State.initial (exampleWorld ⟨none, some 1, none⟩ true 0 1)
      [Call.write 3 (some [65]) 1, Call.fdatasync 3]).state =
    (run 0 State.initial (exampleWorld ⟨none, some 1, none⟩ true 0 1)
      [Call.write 3 (some [65]) 1, Call.fsync 3]).state ∧
    (run 0 State.initial (exampleWorld ⟨none, some 1, none⟩ true 0 1)
      [Call.write 3 (some [65]) 1, Call.fdatasync 3]).world.log =
    (run 0 State.initial (exampleWorld ⟨none, some 1, none⟩ true 0 1)
      [Call.write 3 (some [65]) 1, Call.fsync 3]).world.log := by
  decide

/-- C9, evaluation of the code with the flag off: `CRASH_AFTER_SYNC_FAILURE` is not
set and `SYNC_FAILURE_ONE_IN=1`.  After a write of `"A"` to descriptor 3 and the
failed sync of it the flag is `false` and the countdown is 10; nine more syncs
return 0 and the tenth ends the process by `SIGKILL`. -/
theorem countdown_armed_with_flag_off :
    (run 0 State.initial (exampleWorld ⟨none, some 1, none⟩ true 0 1)
      [Call.write 3 (some [65]) 1, Call.fsync 3]).value = some [some 1, some (-1)] ∧
    (run 0 State.initial (exampleWorld ⟨none, some 1, none⟩ true 0 1)
      [Call.write 3 (some [65]) 1, Call.fsync 3]).state.map
        (fun s => (s.crash_after_sync_failure, s.num_syncs_until_crash)) =
      some (false, 10) ∧
    (run 0 State.initial (exampleWorld ⟨none, some 1, none⟩ true 0 1)
      ([Call.write 3 (some [65]) 1, Call.fsync 3] ++
        List.replicate 9 (Call.fsync 3))).value =
      some ([some 1, some (-1)] ++ List.replicate 9 (some 0)) ∧
    (run 0 State.initial (exampleWorld ⟨none, some 1, none⟩ true 0 1)
      ([Call.write 3 (some [65]) 1, Call.fsync 3] ++
        List.replicate 10 (Call.fsync 3))).isKilled = true := by
  decide

/-- C10, evaluation of the code at descriptor 1024: `write` fails its assertion and
aborts, while `fsync`, which has no such assertion, indexes the table of 1024
entries at 1024. -/
theorem fsync_1024_indexes_outside_table :
    (write State.initial (exampleWorld ⟨none, none, none⟩ true 0 1) 1024
      (some [65]) 1).isAborted = true ∧
    ((maybe_init State.initial (exampleWorld ⟨none, none, none⟩ true 0 1)).fd_to_buf.map
      List.length) = some 1024 ∧
    (fsync 0 State.initial (exampleWorld ⟨none, none, none⟩ true 0 1) 1024).isUndefined
      = true := by
  decide

/-! ## The representation invariant is kept by every call -/

theorem realloc_length (p : Option (List Byte)) (n : Nat) (blk : List Byte)
    (h : realloc p n = some blk) : blk.length = n := by
  unfold realloc at h
  cases h
  simp only [List.length_append, List.length_take, List.length_replicate]
  omega

theorem memcpy_length (dst : List Byte) (off : Nat) (src : List Byte) (count : Nat)
    (h : dst.length = off + count) : (memcpy dst off src count).length = off + count := by
  unfold memcpy
  simp only [List.length_append, List.length_take, List.length_replicate, List.length_drop]
  omega

theorem countdown_WF (s : State) (h : s.WF) : s.countdown.WF := by
  intro t ht
  rw [countdown_fd_to_buf] at ht
  exact h t ht

theorem arm_WF (s : State) (h : s.WF) : s.arm.WF := by
  intro t ht
  rw [arm_fd_to_buf] at ht
  exact h t ht

theorem write_WF (s : State) (w : World) (fd : Int) (buf : Option (List Byte)) (count : Nat)
    (v : Int) (s' : State) (w' : World) (hwf : s.WF)
    (h : write s w fd buf count = .ret v s' w') : s'.WF := by
  have hwf0 := maybe_init_WF s w hwf
  unfold write at h
  simp only at h
  split at h
  · cases h
  · split at h
    · cases h; exact hwf0
    · split at h
      · cases h; exact hwf0
      · split at h
        · cases h
        · split at h
          · cases h; exact hwf0
          · split at h
            · cases h
            · split at h
              · cases h
              · rename_i hre
                cases h
                apply setEntry_WF _ fd _ hwf0
                have hlen := realloc_length _ _ _ hre
                have hcount : 0 < count := by omega
                simp only [Buf.WF, memcpy_length _ _ _ _ hlen, true_and]
                omega

theorem fsync_body_WF (fuel : Nat) (s : State) (w : World) (fd : Int)
    (v : Int) (s' : State) (w' : World) (hwf : s.WF)
    (h : fsync_body fuel s w fd = .ret v s' w') : s'.WF := by
  have hset : (s.setEntry fd ⟨none, 0⟩).WF := setEntry_WF s fd _ hwf (by simp [Buf.WF])
  unfold fsync_body at h
  simp only at h
  split at h
  · cases h
  · split at h
    · cases h; exact hwf
    · split at h
      · cases h
      · split at h
        · cases h; exact arm_WF _ hset
        · split at h
          · cases h; exact hset
          · cases h
          · cases h

theorem fsync_WF (fuel : Nat) (s : State) (w : World) (fd : Int)
    (v : Int) (s' : State) (w' : World) (hwf : s.WF)
    (h : fsync fuel s w fd = .ret v s' w') : s'.WF := by
  by_cases hn : s.num_syncs_until_crash = 1
  · rw [fsync_expire fuel s w fd hn] at h; cases h
  · rw [fsync_no_expire fuel s w fd hn] at h
    exact fsync_body_WF fuel _ w fd v s' w' (countdown_WF _ (maybe_init_WF s w hwf)) h

theorem step_WF (fuel : Nat) (s : State) (w : World) (c : Call)
    (v : Option Int) (s' : State) (w' : World) (hwf : s.WF)
    (h : step fuel s w c = .ret v s' w') : s'.WF := by
  cases c with
  | write fd buf count =>
    simp only [step] at h
    cases hw : write s w fd buf count with
    | ret v1 s1 w1 =>
      rw [hw] at h
      simp only [Outcome.mapValue] at h
      cases h
      exact write_WF s w fd buf count _ _ _ hwf hw
    | killed _ => rw [hw] at h; cases h
    | aborted _ => rw [hw] at h; cases h
    | undefined _ => rw [hw] at h; cases h
    | outOfFuel _ => rw [hw] at h; cases h
  | fsync fd =>
    simp only [step] at h
    cases hw : fsync fuel s w fd with
    | ret v1 s1 w1 =>
      rw [hw] at h
      simp only [Outcome.mapValue] at h
      cases h
      exact fsync_WF fuel s w fd _ _ _ hwf hw
    | killed _ => rw [hw] at h; cases h
    | aborted _ => rw [hw] at h; cases h
    | undefined _ => rw [hw] at h; cases h
    | outOfFuel _ => rw [hw] at h; cases h
  | fdatasync fd =>
    simp only [step, fdatasync] at h
    cases hw : fsync fuel s w fd with
    | ret v1 s1 w1 =>
      rw [hw] at h
      cases h
      exact fsync_WF fuel s w fd _ _ _ hwf hw
    | killed _ => rw [hw] at h; cases h
    | aborted _ => rw [hw] at h; cases h
    | undefined _ => rw [hw] at h; cases h
    | outOfFuel _ => rw [hw] at h; cases h

/-- Every state reached from a state that satisfies the representation invariant,
in particular from the initial state, satisfies it. -/
theorem run_WF (fuel : Nat) (cs : List Call) :
    ∀ (s : State) (w : World) (vs : List (Option Int)) (s' : State) (w' : World),
      s.WF → run fuel s w cs = .ret vs s' w' → s'.WF := by
  induction cs with
  | nil =>
    intro s w vs s' w' hwf h
    simp only [run] at h
    cases h
    exact hwf
  | cons c cs ih =>
    intro s w vs s' w' hwf h
    cases hst : step fuel s w c with
    | ret v1 s1 w1 =>
      rw [run_cons_ret fuel s w c cs v1 s1 w1 hst] at h
      cases hr : run fuel s1 w1 cs with
      | ret vs2 s2 w2 =>
        rw [hr] at h
        simp only [Outcome.mapValue] at h
        cases h
        exact ih s1 w1 _ _ _ (step_WF fuel s w c v1 s1 w1 hwf hst) hr
      | killed _ => rw [hr] at h; cases h
      | aborted _ => rw [hr] at h; cases h
      | undefined _ => rw [hr] at h; cases h
      | outOfFuel _ => rw [hr] at h; cases h
    | killed _ => simp only [run, hst] at h; cases h
    | aborted _ => simp only [run, hst] at h; cases h
    | undefined _ => simp only [run, hst] at h; cases h
    | outOfFuel _ => simp only [run, hst] at h; cases h

/-! ## The loop of `fsync` -/

theorem flush_loop_zero (fd : Int) (data : List Byte) (fuel : Nat) (w : World) :
    flush_loop fd data fuel 0 w = .done w := by
  cases fuel <;> simp [flush_loop]

theorem flush_loop_succ (fd : Int) (data : List Byte) (fuel len : Nat) (w : World)
    (h : len ≠ 0) :
    flush_loop fd data (fuel + 1) len w =
      if (libc_write w fd data len).1 > 0 then
        flush_loop fd data fuel (size_sub len (libc_write w fd data len).1)
          (libc_write w fd data len).2
      else .failed (libc_write w fd data len).2 := by
  simp [flush_loop, h]

theorem size_sub_of_le (len : Nat) (r : Int) (h1 : 1 ≤ r) (h2 : r ≤ (len : Int))
    (h3 : len < SIZE_MOD) : size_sub len r = len - r.toNat := by
  unfold size_sub
  have hm : (0 : Int) < (SIZE_MOD : Int) := by unfold SIZE_MOD; norm_num
  have h4 : ((len : Int) - r) % (SIZE_MOD : Int) = (len : Int) - r :=
    Int.emod_eq_of_lt (by omega) (by omega)
  rw [h4]
  omega

/-- With an honest primitive and fuel for `L` iterations the loop ends normally and
its calls account for the `L` bytes. -/
theorem flush_loop_honest (fd : Int) (data : List Byte) :
    ∀ (fuel L : Nat) (w : World), w.honest → L ≤ fuel → L < SIZE_MOD →
      ∃ calls, flush_loop fd data fuel L w = .done { w with log := w.log ++ calls } ∧
        accounts fd data L calls := by
  intro fuel
  induction fuel with
  | zero =>
    intro L w _ hL _
    have : L = 0 := by omega
    subst this
    exact ⟨[], by simp [flush_loop], rfl⟩
  | succ n ih =>
    intro L w hgood hL hsz
    by_cases h0 : L = 0
    · subst h0
      exact ⟨[], by rw [flush_loop_zero]; simp, rfl⟩
    · obtain ⟨h1, h2⟩ := hgood w.log.length fd data L (by omega)
      have hr : (libc_write w fd data L).1 = w.libc w.log.length fd data L := rfl
      have hw : (libc_write w fd data L).2 =
          { w with log := w.log ++ [⟨fd, data, L, w.libc w.log.length fd data L⟩] } := rfl
      have hsub := size_sub_of_le L _ h1 h2 hsz
      obtain ⟨calls, hrun, hacc⟩ := ih (L - (w.libc w.log.length fd data L).toNat)
        { w with log := w.log ++ [⟨fd, data, L, w.libc w.log.length fd data L⟩] }
        hgood (by omega) (by omega)
      refine ⟨⟨fd, data, L, w.libc w.log.length fd data L⟩ :: calls, ?_, ?_⟩
      · rw [flush_loop_succ fd data n L w h0, hr, hw, hsub]
        have hpos : w.libc w.log.length fd data L > 0 := by omega
        simp only [hpos, if_true, hrun, List.append_assoc, List.singleton_append]
      · exact ⟨rfl, rfl, rfl, h1, h2, hacc⟩

/-- Whatever the primitive does, every call of the loop is for `fd` and passes the
block `data`. -/
theorem flush_loop_log (fd : Int) (data : List Byte) :
    ∀ (fuel len : Nat) (w : World),
      ∃ calls, (flush_loop fd data fuel len w).world.log = w.log ++ calls ∧
        ∀ c ∈ calls, c.fd = fd ∧ c.buf = data := by
  intro fuel
  induction fuel with
  | zero =>
    intro len w
    refine ⟨[], ?_, by simp⟩
    by_cases h : len = 0 <;> simp [flush_loop, h, Flush.world]
  | succ n ih =>
    intro len w
    by_cases h0 : len = 0
    · subst h0
      exact ⟨[], by rw [flush_loop_zero]; simp [Flush.world], by simp⟩
    · rw [flush_loop_succ fd data n len w h0]
      by_cases hpos : (libc_write w fd data len).1 > 0
      · simp only [hpos, if_true]
        obtain ⟨calls, hlog, hall⟩ := ih (size_sub len (libc_write w fd data len).1)
          (libc_write w fd data len).2
        refine ⟨⟨fd, data, len, w.libc w.log.length fd data len⟩ :: calls, ?_, ?_⟩
        · rw [hlog]
          simp [libc_write]
        · intro c hc
          rcases List.mem_cons.mp hc with hc | hc
          · rw [hc]; exact ⟨rfl, rfl⟩
          · exact hall c hc
      · simp only [hpos, if_false]
        refine ⟨[⟨fd, data, len, w.libc w.log.length fd data len⟩], ?_, ?_⟩
        · simp [Flush.world, libc_write]
        · intro c hc
          rw [List.mem_singleton.mp hc]
          exact ⟨rfl, rfl⟩

theorem fsync_body_undefined (fuel : Nat) (s : State) (w : World) (fd : Int)
    (he : s.entry fd = none) : fsync_body fuel s w fd = .undefined w := by
  unfold fsync_body
  simp [he]

theorem fsync_body_flush (fuel : Nat) (s : State) (w : World) (fd : Int) (b : Buf)
    (blk : List Byte) (he : s.entry fd = some b) (hd : b.data = some blk)
    (hc : (draw_selects s.crash_failure_one_in w).1 = false)
    (hf : (draw_selects s.sync_failure_one_in (draw_selects s.crash_failure_one_in w).2).1
      = false) :
    fsync_body fuel s w fd =
      match flush_loop fd blk fuel b.len
        (draw_selects s.sync_failure_one_in (draw_selects s.crash_failure_one_in w).2).2 with
      | .done w3 => .ret 0 (s.setEntry fd ⟨none, 0⟩) w3
      | .failed w3 => .aborted w3
      | .outOfFuel w3 => .outOfFuel w3 := by
  unfold fsync_body
  simp [he, hd, State.setEntry, hc, hf]

/-- The world after the two conditions of source lines 126 and 128 were evaluated
differs from the world before only in the number of draws made. -/
theorem draw_selects_twice_world (m n : Int) (w : World) :
    (draw_selects n (draw_selects m w).2).2 =
      { w with nrand := (draw_selects n (draw_selects m w).2).2.nrand } := by
  unfold draw_selects
  by_cases hm : m > 0 <;> by_cases hn : n > 0 <;> simp [hm, hn]

/-- C12 as amended: for every state and every descriptor below the maximum
descriptor count (`fd < 1024`), of any kind, a write of zero bytes returns 0 in an
unchanged world (no `fstat`, no call of the real `write`) and changes no table
entry: the pending bytes of every descriptor are what they were. -/
theorem write_zero_bytes_is_noop (s : State) (w : World) (fd : Int)
    (buf : Option (List Byte)) (h1 : fd < kMaxFd) :
    ∃ s', write s w fd buf 0 = .ret 0 s' w ∧
      s' = maybe_init s w ∧
      ∀ x, s'.pending x = s.pending x := by
  refine ⟨maybe_init s w, ?_, rfl, fun x => maybe_init_pending s w x⟩
  unfold write
  cases buf <;> simp [h1]

/-- Witness of C12 as amended: a write of zero bytes to descriptor 7, a socket, as
the first call of the process. -/
theorem write_zero_bytes_is_noop_witness :
    ∃ s', write State.initial (exampleWorld ⟨none, none, none⟩ false 0 1) 7 (some []) 0 =
        .ret 0 s' (exampleWorld ⟨none, none, none⟩ false 0 1) ∧
      s' = maybe_init State.initial (exampleWorld ⟨none, none, none⟩ false 0 1) ∧
      ∀ x, s'.pending x = State.initial.pending x :=
  write_zero_bytes_is_noop State.initial (exampleWorld ⟨none, none, none⟩ false 0 1) 7
    (some []) (by decide)

/-- C12 as stated fails: a write of zero bytes to descriptor 1024 fails the
assertion of source line 77, which comes before the test of `count`; the process
aborts. -/
theorem write_zero_bytes_1024_aborts :
    (write State.initial (exampleWorld ⟨none, none, none⟩ true 0 1) 1024
      (some []) 0).isAborted = true ∧
    (write State.initial (exampleWorld ⟨none, none, none⟩ true 0 1) 1024
      (some []) 0).value = none := by
  decide

/-- C15: on a state whose table is allocated, `maybe_init` is the identity: no
Pending Buffer, none of the three parameters and not the countdown changes, whatever
the environment holds by then.  Every state that `maybe_init` returns is such a
state, so a second call, as made at the start of every `write` and `fsync`, changes
nothing. -/
theorem maybe_init_is_identity_once_initialized (s : State) (w : World)
    (h : s.fd_to_buf ≠ none) :
    maybe_init s w = s ∧
    ∀ (t : State) (w1 w2 : World), maybe_init (maybe_init t w1) w2 = maybe_init t w1 := by
  refine ⟨?_, fun t w1 w2 => maybe_init_idem t w1 w2⟩
  cases hs : s.fd_to_buf with
  | none => exact absurd hs h
  | some tbl => exact maybe_init_of_some s w tbl hs

/-- Witness of C15: the state initialised without environment variables is not
changed by a call of `maybe_init` made when all three variables are set. -/
theorem maybe_init_is_identity_once_initialized_witness :
    maybe_init (maybe_init State.initial (exampleWorld ⟨none, none, none⟩ true 0 1))
        (exampleWorld ⟨some 5, some 7, some 1⟩ true 0 1) =
      maybe_init State.initial (exampleWorld ⟨none, none, none⟩ true 0 1) ∧
    ∀ (t : State) (w1 w2 : World), maybe_init (maybe_init t w1) w2 = maybe_init t w1 :=
  maybe_init_is_identity_once_initialized
    (maybe_init State.initial (exampleWorld ⟨none, none, none⟩ true 0 1))
    (exampleWorld ⟨some 5, some 7, some 1⟩ true 0 1) (by decide)

theorem entry_mem (s : State) (tbl : List Buf) (fd : Int) (b : Buf)
    (hs : s.fd_to_buf = some tbl) (he : s.entry fd = some b) : b ∈ tbl := by
  unfold State.entry at he
  rw [hs] at he
  simp only at he
  split at he
  · cases he
  · exact List.getElem?_mem he

/-- C18: in every state reached from the initial state by calls of `write`, `fsync`
and `fdatasync`, every table entry has a block if and only if its `len` is positive;
hence `data == NULL`, the test of source line 116, holds exactly when the descriptor
has no pending bytes. -/
theorem block_present_iff_len_positive (fuel : Nat) (w : World) (cs : List Call)
    (vs : List (Option Int)) (s' : State) (w' : World) (fd : Int) (b : Buf)
    (hrun : run fuel State.initial w cs = .ret vs s' w')
    (he : s'.entry fd = some b) :
    (b.data ≠ none ↔ 0 < b.len) ∧ (b.data = none ↔ s'.pending fd = []) := by
  have hwf := run_WF fuel cs State.initial w vs s' w' State.initial_WF hrun
  obtain ⟨tbl, hs, _, _⟩ := entry_some_range s' fd b he
  have hb := (hwf tbl hs).2 b (entry_mem s' tbl fd b hs he)
  have hpl := pending_length s' fd hwf
  rw [len_eq_of_entry s' fd b he] at hpl
  unfold Buf.WF at hb
  cases hd : b.data with
  | none =>
    rw [hd] at hb
    simp only at hb
    refine ⟨by simp [hb], by simp only [true_iff]; exact List.length_eq_zero.mp (by omega)⟩
  | some blk =>
    rw [hd] at hb
    simp only at hb
    refine ⟨by simp [hb.2], ?_⟩
    constructor
    · intro h; cases h
    · intro h
      rw [h] at hpl
      simp only [List.length_nil] at hpl
      omega

/-- Witness of C18: the entry of descriptor 3 after `"A"` was written to it. -/
theorem block_present_iff_len_positive_witness :
    ((⟨some [65], 1⟩ : Buf).data ≠ none ↔ 0 < (⟨some [65], 1⟩ : Buf).len) ∧
    ((⟨some [65], 1⟩ : Buf).data = none ↔
      ((maybe_init State.initial (exampleWorld ⟨none, none, none⟩ true 0 1)).setEntry 3
        ⟨some [65], 1⟩).pending 3 = []) :=
  block_present_iff_len_positive 0 (exampleWorld ⟨none, none, none⟩ true 0 1)
    [Call.write 3 (some [65]) 1] [some 1]
    ((maybe_init State.initial (exampleWorld ⟨none, none, none⟩ true 0 1)).setEntry 3
      ⟨some [65], 1⟩)
    { exampleWorld ⟨none, none, none⟩ true 0 1 with nstat := 1 } 3 ⟨some [65], 1⟩
    rfl (by decide)

/-! ## The ways a call of `fsync` can end -/

theorem sync_state_entry (s : State) (w : World) (fd : Int) :
    (sync_state s w).entry fd = (maybe_init s w).entry fd := entry_countdown _ fd

theorem sync_state_crash (s : State) (w : World) :
    (sync_state s w).crash_failure_one_in = (maybe_init s w).crash_failure_one_in :=
  countdown_crash_failure_one_in _

theorem sync_state_sync (s : State) (w : World) :
    (sync_state s w).sync_failure_one_in = (maybe_init s w).sync_failure_one_in :=
  countdown_sync_failure_one_in _

theorem crash_selected_iff (s : State) (w : World) :
    (draw_selects s.crash_failure_one_in w).1 = true ↔ crash_selected s w :=
  draw_selects_iff _ _

theorem failure_selected_iff (s : State) (w : World) :
    (draw_selects s.sync_failure_one_in (draw_selects s.crash_failure_one_in w).2).1 = true
      ↔ failure_selected s w := by
  rw [draw_selects_iff, draw_selects_snd_random, draw_selects_snd_nrand]
  rfl

/-- The six ways a call of `fsync` can end, in the order of the source. -/
theorem fsync_cases (fuel : Nat) (s : State) (w : World) (fd : Int) :
    (s.num_syncs_until_crash = 1 ∧ fsync fuel s w fd = .killed w) ∨
    (s.num_syncs_until_crash ≠ 1 ∧ (sync_state s w).entry fd = none ∧
      fsync fuel s w fd = .undefined w) ∨
    (s.num_syncs_until_crash ≠ 1 ∧
      (∃ b, (sync_state s w).entry fd = some b ∧ b.data = none) ∧
      fsync fuel s w fd = .ret 0 (sync_state s w) w) ∨
    (s.num_syncs_until_crash ≠ 1 ∧
      (∃ b blk, (sync_state s w).entry fd = some b ∧ b.data = some blk) ∧
      crash_selected (sync_state s w) w ∧
      fsync fuel s w fd =
        .killed (draw_selects (sync_state s w).crash_failure_one_in w).2) ∨
    (s.num_syncs_until_crash ≠ 1 ∧
      (∃ b blk, (sync_state s w).entry fd = some b ∧ b.data = some blk) ∧
      ¬ crash_selected (sync_state s w) w ∧ failure_selected (sync_state s w) w ∧
      fsync fuel s w fd =
        .ret (-1) ((sync_state s w).setEntry fd ⟨none, 0⟩).arm
          (draws_world (sync_state s w) w)) ∨
    (s.num_syncs_until_crash ≠ 1 ∧
      ¬ crash_selected (sync_state s w) w ∧ ¬ failure_selected (sync_state s w) w ∧
      ∃ b blk, (sync_state s w).entry fd = some b ∧ b.data = some blk ∧
        fsync fuel s w fd =
          (flush_loop fd blk fuel b.len (draws_world (sync_state s w) w)).toOutcome
            ((sync_state s w).setEntry fd ⟨none, 0⟩)) := by
  by_cases hn : s.num_syncs_until_crash = 1
  · exact Or.inl ⟨hn, fsync_expire fuel s w fd hn⟩
  · have hbody : fsync fuel s w fd = fsync_body fuel (sync_state s w) w fd :=
      fsync_no_expire fuel s w fd hn
    right
    cases he : (sync_state s w).entry fd with
    | none => exact Or.inl ⟨hn, rfl, by rw [hbody, fsync_body_undefined fuel _ w fd he]⟩
    | some b =>
      right
      cases hd : b.data with
      | none =>
        exact Or.inl ⟨hn, ⟨b, rfl, hd⟩, by rw [hbody, fsync_body_empty fuel _ w fd b he hd]⟩
      | some blk =>
        right
        by_cases hc : crash_selected (sync_state s w) w
        · exact Or.inl ⟨hn, ⟨b, blk, rfl, hd⟩, hc, by
            rw [hbody, fsync_body_crash fuel _ w fd b blk he hd
              ((crash_selected_iff _ _).mpr hc)]⟩
        · right
          have hc' : (draw_selects (sync_state s w).crash_failure_one_in w).1 = false := by
            rw [← Bool.not_eq_true, crash_selected_iff]; exact hc
          by_cases hf : failure_selected (sync_state s w) w
          · exact Or.inl ⟨hn, ⟨b, blk, rfl, hd⟩, hc, hf, by
              rw [hbody, fsync_body_fail fuel _ w fd b blk he hd hc'
                ((failure_selected_iff _ _).mpr hf)]
              rfl⟩
          · right
            have hf' : (draw_selects (sync_state s w).sync_failure_one_in
                (draw_selects (sync_state s w).crash_failure_one_in w).2).1 = false := by
              rw [← Bool.not_eq_true, failure_selected_iff]; exact hf
            refine ⟨hn, hc, hf, b, blk, rfl, hd, ?_⟩
            rw [hbody, fsync_body_flush fuel _ w fd b blk he hd hc' hf']
            unfold draws_world
            cases flush_loop fd blk fuel b.len
              (draw_selects (sync_state s w).sync_failure_one_in
                (draw_selects (sync_state s w).crash_failure_one_in w).2).2 <;> rfl

theorem draws_world_log (s : State) (w : World) : (draws_world s w).log = w.log := by
  unfold draws_world
  rw [draw_selects_log, draw_selects_log]

theorem draws_world_honest (s : State) (w : World) (h : w.honest) :
    (draws_world s w).honest := by
  unfold World.honest draws_world
  rw [draw_selects_twice_world]
  exact h

theorem toOutcome_isKilled (s2 : State) (f : Flush) : (f.toOutcome s2).isKilled = false := by
  cases f <;> rfl

theorem mapValue_ret_inv {α β : Type} (f : α → β) (o : Outcome α) (v : β) (s : State)
    (w : World) (h : o.mapValue f = .ret v s w) : ∃ u, o = .ret u s w ∧ v = f u := by
  cases o with
  | ret u s1 w1 =>
    simp only [Outcome.mapValue] at h
    cases h
    exact ⟨u, rfl, rfl⟩
  | killed _ => simp only [Outcome.mapValue] at h; cases h
  | aborted _ => simp only [Outcome.mapValue] at h; cases h
  | undefined _ => simp only [Outcome.mapValue] at h; cases h
  | outOfFuel _ => simp only [Outcome.mapValue] at h; cases h

theorem mapValue_isKilled {α β : Type} (f : α → β) (o : Outcome α) :
    (o.mapValue f).isKilled = o.isKilled := by
  cases o <;> rfl

theorem mapValue_world {α β : Type} (f : α → β) (o : Outcome α) :
    (o.mapValue f).world = o.world := by
  cases o <;> rfl

theorem fdatasync_ret_inv (fuel : Nat) (s : State) (w : World) (fd : Int) (v : Option Int)
    (s' : State) (w' : World) (h : fdatasync fuel s w fd = .ret v s' w') :
    ∃ r, fsync fuel s w fd = .ret r s' w' ∧ v = none := by
  unfold fdatasync at h
  cases hf : fsync fuel s w fd with
  | ret r s1 w1 => rw [hf] at h; cases h; exact ⟨r, rfl, rfl⟩
  | killed _ => rw [hf] at h; cases h
  | aborted _ => rw [hf] at h; cases h
  | undefined _ => rw [hf] at h; cases h
  | outOfFuel _ => rw [hf] at h; cases h

theorem fdatasync_isKilled (fuel : Nat) (s : State) (w : World) (fd : Int) :
    (fdatasync fuel s w fd).isKilled = (fsync fuel s w fd).isKilled := by
  unfold fdatasync
  cases fsync fuel s w fd <;> rfl

theorem fdatasync_world (fuel : Nat) (s : State) (w : World) (fd : Int) :
    (fdatasync fuel s w fd).world = (fsync fuel s w fd).world := by
  unfold fdatasync
  cases fsync fuel s w fd <;> rfl

/-- A step that returns is a `write` that returned, an `fsync` that returned, or an
`fdatasync` whose `fsync` returned. -/
theorem step_ret_cases (fuel : Nat) (s : State) (w : World) (c : Call) (v : Option Int)
    (s' : State) (w' : World) (h : step fuel s w c = .ret v s' w') :
    (∃ fd buf count r, c = .write fd buf count ∧
      write s w fd buf count = .ret r s' w' ∧ v = some r) ∨
    (∃ fd r, c = .fsync fd ∧ fsync fuel s w fd = .ret r s' w' ∧ v = some r) ∨
    (∃ fd r, c = .fdatasync fd ∧ fsync fuel s w fd = .ret r s' w' ∧ v = none) := by
  cases c with
  | write fd buf count =>
    obtain ⟨r, hr, hv⟩ := mapValue_ret_inv some _ v s' w' h
    exact Or.inl ⟨fd, buf, count, r, rfl, hr, hv⟩
  | fsync fd =>
    obtain ⟨r, hr, hv⟩ := mapValue_ret_inv some _ v s' w' h
    exact Or.inr (Or.inl ⟨fd, r, rfl, hr, hv⟩)
  | fdatasync fd =>
    obtain ⟨r, hr, hv⟩ := fdatasync_ret_inv fuel s w fd v s' w' h
    exact Or.inr (Or.inr ⟨fd, r, rfl, hr, hv⟩)

theorem run_cons_inv (fuel : Nat) (s : State) (w : World) (c : Call) (cs : List Call)
    (vs : List (Option Int)) (s' : State) (w' : World)
    (h : run fuel s w (c :: cs) = .ret vs s' w') :
    ∃ v s1 w1 vs1, step fuel s w c = .ret v s1 w1 ∧
      run fuel s1 w1 cs = .ret vs1 s' w' ∧ vs = v :: vs1 := by
  cases hst : step fuel s w c with
  | ret v s1 w1 =>
    rw [run_cons_ret fuel s w c cs v s1 w1 hst] at h
    obtain ⟨vs1, hr, hv⟩ := mapValue_ret_inv _ _ vs s' w' h
    exact ⟨v, s1, w1, vs1, rfl, hr, hv⟩
  | killed _ => simp only [run, hst] at h; cases h
  | aborted _ => simp only [run, hst] at h; cases h
  | undefined _ => simp only [run, hst] at h; cases h
  | outOfFuel _ => simp only [run, hst] at h; cases h

/-- A property of states kept by every returning step holds after every returning
sequence of calls. -/
theorem run_invariant (fuel : Nat) (P : State → Prop)
    (hstep : ∀ s w c v s' w', P s → step fuel s w c = .ret v s' w' → P s')
    (cs : List Call) :
    ∀ (s : State) (w : World) (vs : List (Option Int)) (s' : State) (w' : World),
      P s → run fuel s w cs = .ret vs s' w' → P s' := by
  induction cs with
  | nil =>
    intro s w vs s' w' hP h
    simp only [run] at h
    cases h
    exact hP
  | cons c cs ih =>
    intro s w vs s' w' hP h
    obtain ⟨v, s1, w1, vs1, hst, hr, _⟩ := run_cons_inv fuel s w c cs vs s' w' h
    exact ih s1 w1 vs1 s' w' (hstep s w c v s1 w1 hP hst) hr

/-! ## What `write` and `fsync` leave behind -/

theorem entry_setEntry_ne (s : State) (fd fd' : Int) (b : Buf) (h0 : 0 ≤ fd)
    (hne : fd' ≠ fd) : (s.setEntry fd b).entry fd' = s.entry fd' := by
  by_cases h : 0 ≤ fd'
  · exact entry_setEntry_other s fd fd' b h0 h hne
  · have hneg : fd' < 0 := by omega
    cases hs : s.fd_to_buf <;> simp [State.entry, State.setEntry, hs, hneg]

/-- A `write` that returns leaves the initialised state as it is or replaces the
entry of `fd`, which then is a descriptor of the table. -/
theorem write_ret_cases (s : State) (w : World) (fd : Int) (buf : Option (List Byte))
    (count : Nat) (v : Int) (s' : State) (w' : World)
    (h : write s w fd buf count = .ret v s' w') :
    s' = maybe_init s w ∨
      ∃ b0 b, (maybe_init s w).entry fd = some b0 ∧ s' = (maybe_init s w).setEntry fd b := by
  unfold write at h
  simp only at h
  split at h
  · cases h
  · split at h
    · cases h; exact Or.inl rfl
    · split at h
      · cases h; exact Or.inl rfl
      · split at h
        · cases h
        · split at h
          · cases h; exact Or.inl rfl
          · split at h
            · cases h
            · split at h
              · cases h
              · rename_i b0 he _ _ _
                cases h
                exact Or.inr ⟨_, _, he, rfl⟩

/-- In every outcome of `write` the log has grown by calls for `fd` only, and no
draw was made. -/
theorem write_world (s : State) (w : World) (fd : Int) (buf : Option (List Byte))
    (count : Nat) :
    (∃ calls, (write s w fd buf count).world.log = w.log ++ calls ∧
      ∀ c ∈ calls, c.fd = fd) ∧
    (write s w fd buf count).world.nrand = w.nrand ∧
    (write s w fd buf count).isKilled = false := by
  unfold write
  simp only
  split
  · exact ⟨⟨[], by simp [Outcome.world], by simp⟩, rfl, rfl⟩
  · split
    · exact ⟨⟨[], by simp [Outcome.world], by simp⟩, rfl, rfl⟩
    · split
      · exact ⟨⟨[], by simp [Outcome.world], by simp⟩, rfl, rfl⟩
      · split
        · exact ⟨⟨[], by simp [Outcome.world], by simp⟩, rfl, rfl⟩
        · split
          · refine ⟨⟨[_], rfl, ?_⟩, rfl, rfl⟩
            intro c hc
            rw [List.mem_singleton.mp hc]
          · split
            · exact ⟨⟨[], by simp [Outcome.world], by simp⟩, rfl, rfl⟩
            · split
              · exact ⟨⟨[], by simp [Outcome.world], by simp⟩, rfl, rfl⟩
              · exact ⟨⟨[], by simp [Outcome.world], by simp⟩, rfl, rfl⟩

/-! ## The countdown -/

theorem sync_state_num (s : State) (w : World) :
    (sync_state s w).num_syncs_until_crash =
      if s.num_syncs_until_crash > 0 then s.num_syncs_until_crash - 1
      else s.num_syncs_until_crash := by
  unfold sync_state State.countdown
  rw [maybe_init_num]
  split <;> simp [maybe_init_num]

theorem arm_num (s : State) :
    s.arm.num_syncs_until_crash =
      if s.num_syncs_until_crash = -1 then 10 else s.num_syncs_until_crash := by
  unfold State.arm
  split <;> rfl

theorem write_ret_num (s : State) (w : World) (fd : Int) (buf : Option (List Byte))
    (count : Nat) (v : Int) (s' : State) (w' : World)
    (h : write s w fd buf count = .ret v s' w') :
    s'.num_syncs_until_crash = s.num_syncs_until_crash := by
  rcases write_ret_cases s w fd buf count v s' w' h with h1 | ⟨_, b, _, h1⟩
  · rw [h1, maybe_init_num]
  · rw [h1]
    exact maybe_init_num s w

/-- What a returning `fsync` does to the countdown: the call did not find it at 1; it
returned 0 and left the countdown decremented if it was positive, or it returned
`-1` and in addition set it to 10 if it was `-1`. -/
theorem fsync_ret_num (fuel : Nat) (s : State) (w : World) (fd : Int) (v : Int)
    (s' : State) (w' : World) (h : fsync fuel s w fd = .ret v s' w') :
    s.num_syncs_until_crash ≠ 1 ∧
    ((v = 0 ∧ s'.num_syncs_until_crash = (sync_state s w).num_syncs_until_crash) ∨
     (v = -1 ∧ s'.num_syncs_until_crash = (sync_state s w).arm.num_syncs_until_crash)) := by
  rcases fsync_cases fuel s w fd with h1 | h1 | h1 | h1 | h1 | h1
  · rw [h1.2] at h; cases h
  · rw [h1.2.2] at h; cases h
  · obtain ⟨hn, _, heq⟩ := h1
    rw [heq] at h; cases h
    exact ⟨hn, Or.inl ⟨rfl, rfl⟩⟩
  · rw [h1.2.2.2] at h; cases h
  · obtain ⟨hn, _, _, _, heq⟩ := h1
    rw [heq] at h; cases h
    refine ⟨hn, Or.inr ⟨rfl, ?_⟩⟩
    rw [arm_num, arm_num]
    rfl
  · obtain ⟨hn, _, _, b, blk, _, _, heq⟩ := h1
    rw [heq] at h
    cases hfl : flush_loop fd blk fuel b.len (draws_world (sync_state s w) w) with
    | done w3 =>
      rw [hfl] at h
      simp only [Flush.toOutcome] at h
      cases h
      exact ⟨hn, Or.inl ⟨rfl, rfl⟩⟩
    | failed w3 => rw [hfl] at h; simp only [Flush.toOutcome] at h; cases h
    | outOfFuel w3 => rw [hfl] at h; simp only [Flush.toOutcome] at h; cases h

theorem step_countdownOk (fuel : Nat) (s : State) (w : World) (c : Call) (v : Option Int)
    (s' : State) (w' : World) (hP : s.countdownOk)
    (h : step fuel s w c = .ret v s' w') : s'.countdownOk := by
  have hsync : ∀ fd r, fsync fuel s w fd = .ret r s' w' → s'.countdownOk := by
    intro fd r hr
    obtain ⟨hn, hnum⟩ := fsync_ret_num fuel s w fd r s' w' hr
    rw [arm_num, sync_state_num] at hnum
    unfold State.countdownOk at hP ⊢
    split at hnum <;> split at hnum <;> omega
  rcases step_ret_cases fuel s w c v s' w' h with
    ⟨fd, buf, count, r, _, hw, _⟩ | ⟨fd, r, _, hr, _⟩ | ⟨fd, r, _, hr, _⟩
  · unfold State.countdownOk at hP ⊢
    rw [write_ret_num s w fd buf count r s' w' hw]
    exact hP
  · exact hsync fd r hr
  · exact hsync fd r hr

/-- C16: the countdown starts at `-1`.  In every state `s` reached from the initial
state by calls of `write`, `fsync` and `fdatasync` it is `-1` or between 1 and 10.
From such a state a `write` that returns leaves it as it is; an `fsync` that returns
found it disarmed and returned 0 leaving it disarmed, or found it disarmed and
returned `-1` setting it to 10, or found it above 1 and decremented it by exactly 1
whatever it returned (a synthetic failure while armed does not set it back to 10);
and when it is 1 the next `fsync`, on any descriptor and whatever is pending, ends
the process by `SIGKILL` in an unchanged world. -/
theorem countdown_invariant (fuel : Nat) (w0 : World) (cs : List Call)
    (vs : List (Option Int)) (s : State) (w1 : World)
    (hreach : run fuel State.initial w0 cs = .ret vs s w1) :
    State.initial.num_syncs_until_crash = -1 ∧
    (s.num_syncs_until_crash = -1 ∨
      (1 ≤ s.num_syncs_until_crash ∧ s.num_syncs_until_crash ≤ 10)) ∧
    (∀ w fd buf count v s' w', write s w fd buf count = .ret v s' w' →
      s'.num_syncs_until_crash = s.num_syncs_until_crash) ∧
    (∀ fuel2 w fd v s' w', fsync fuel2 s w fd = .ret v s' w' →
      (s.num_syncs_until_crash = -1 ∧ v = 0 ∧ s'.num_syncs_until_crash = -1) ∨
      (s.num_syncs_until_crash = -1 ∧ v = -1 ∧ s'.num_syncs_until_crash = 10) ∨
      (1 < s.num_syncs_until_crash ∧ (v = 0 ∨ v = -1) ∧
        s'.num_syncs_until_crash = s.num_syncs_until_crash - 1)) ∧
    (s.num_syncs_until_crash = 1 →
      ∀ fuel2 w fd, fsync fuel2 s w fd = .killed w) := by
  have hok : s.countdownOk :=
    run_invariant fuel State.countdownOk (step_countdownOk fuel) cs State.initial w0 vs s w1
      (Or.inl rfl) hreach
  refine ⟨rfl, hok, ?_, ?_, ?_⟩
  · intro w fd buf count v s' w' h
    exact write_ret_num s w fd buf count v s' w' h
  · intro fuel2 w fd v s' w' h
    obtain ⟨hn, hnum⟩ := fsync_ret_num fuel2 s w fd v s' w' h
    rw [arm_num, sync_state_num] at hnum
    unfold State.countdownOk at hok
    split at hnum <;> split at hnum <;> omega
  · intro h1 fuel2 w fd
    exact fsync_expire fuel2 s w fd h1

/-- Witness of C16: the state after `"A"` was written to descriptor 3 and the sync
of it failed with `SYNC_FAILURE_ONE_IN=1`; its countdown is 10. -/
theorem countdown_invariant_witness :
    ((maybe_init State.initial (exampleWorld ⟨none, some 1, none⟩ true 0 1)).setEntry 3
        ⟨none, 0⟩).arm.num_syncs_until_crash = -1 ∨
      (1 ≤ ((maybe_init State.initial (exampleWorld ⟨none, some 1, none⟩ true 0 1)).setEntry 3
        ⟨none, 0⟩).arm.num_syncs_until_crash ∧
       ((maybe_init State.initial (exampleWorld ⟨none, some 1, none⟩ true 0 1)).setEntry 3
        ⟨none, 0⟩).arm.num_syncs_until_crash ≤ 10) :=
  (countdown_invariant 0 (exampleWorld ⟨none, some 1, none⟩ true 0 1)
    [Call.write 3 (some [65]) 1, Call.fsync 3] [some 1, some (-1)]
    ((maybe_init State.initial (exampleWorld ⟨none, some 1, none⟩ true 0 1)).setEntry 3
      ⟨none, 0⟩).arm
    { exampleWorld ⟨none, some 1, none⟩ true 0 1 with nstat := 1, nrand := 1 } rfl).2.1

/-! ## Disabled denominators -/

theorem toOutcome_world (s2 : State) (f : Flush) : (f.toOutcome s2).world = f.world := by
  cases f <;> rfl

theorem flush_loop_nrand (fd : Int) (data : List Byte) :
    ∀ (fuel len : Nat) (w : World), (flush_loop fd data fuel len w).world.nrand = w.nrand := by
  intro fuel
  induction fuel with
  | zero =>
    intro len w
    by_cases h : len = 0 <;> simp [flush_loop, h, Flush.world]
  | succ n ih =>
    intro len w
    by_cases h0 : len = 0
    · subst h0; rw [flush_loop_zero]; rfl
    · rw [flush_loop_succ fd data n len w h0]
      by_cases hpos : (libc_write w fd data len).1 > 0
      · simp only [hpos, if_true]
        rw [ih]
        rfl
      · simp only [hpos, if_false]
        rfl

theorem countdown_of_disarmed (s : State) (h : s.num_syncs_until_crash = -1) :
    s.countdown = s := by
  simp [State.countdown, h]

theorem draws_world_of_nonpos (s : State) (w : World) (hc : s.crash_failure_one_in ≤ 0)
    (hf : s.sync_failure_one_in ≤ 0) : draws_world s w = w := by
  unfold draws_world
  rw [draw_selects_of_nonpos _ w hc, draw_selects_of_nonpos _ w hf]

/-- With both denominators disabled and the countdown disarmed a call of `fsync` is
not killed, makes no draw, and returns 0 if it returns; the three conditions hold
again afterwards, on an allocated table. -/
theorem fsync_disabled (fuel : Nat) (s : State) (w : World) (fd : Int)
    (h : (maybe_init s w).faultsDisabled) :
    (fsync fuel s w fd).isKilled = false ∧
    (fsync fuel s w fd).world.nrand = w.nrand ∧
    ∀ v s' w', fsync fuel s w fd = .ret v s' w' →
      v = 0 ∧ s'.faultsDisabled ∧ ∃ tbl, s'.fd_to_buf = some tbl := by
  obtain ⟨hcf, hsf, hnum⟩ := h
  have hnum0 : s.num_syncs_until_crash = -1 := by rw [← maybe_init_num s w]; exact hnum
  have hss : sync_state s w = maybe_init s w := countdown_of_disarmed _ hnum
  obtain ⟨tbl, htbl⟩ := maybe_init_isSome s w
  have hnc : ¬ crash_selected (sync_state s w) w := by
    rw [hss]; unfold crash_selected; omega
  have hnf : ¬ failure_selected (sync_state s w) w := by
    rw [hss]; unfold failure_selected; omega
  rcases fsync_cases fuel s w fd with h1 | h1 | h1 | h1 | h1 | h1
  · rw [hnum0] at h1; exact absurd h1.1 (by decide)
  · rw [h1.2.2]
    exact ⟨rfl, rfl, fun v s' w' hr => by cases hr⟩
  · rw [h1.2.2, hss]
    refine ⟨rfl, rfl, fun v s' w' hr => ?_⟩
    cases hr
    exact ⟨rfl, ⟨hcf, hsf, hnum⟩, tbl, htbl⟩
  · exact absurd h1.2.2.1 hnc
  · exact absurd h1.2.2.2.1 hnf
  · obtain ⟨_, _, _, b, blk, _, _, heq⟩ := h1
    rw [heq, hss, draws_world_of_nonpos _ w hcf hsf]
    refine ⟨toOutcome_isKilled _ _, by rw [toOutcome_world, flush_loop_nrand], ?_⟩
    intro v s' w' hr
    cases hfl : flush_loop fd blk fuel b.len w with
    | done w3 =>
      rw [hfl] at hr
      simp only [Flush.toOutcome] at hr
      cases hr
      exact ⟨rfl, ⟨hcf, hsf, hnum⟩, _, setEntry_isSome _ fd _ tbl htbl⟩
    | failed w3 => rw [hfl] at hr; simp only [Flush.toOutcome] at hr; cases hr
    | outOfFuel w3 => rw [hfl] at hr; simp only [Flush.toOutcome] at hr; cases hr

theorem write_disabled (s : State) (w : World) (fd : Int) (buf : Option (List Byte))
    (count : Nat) (h : (maybe_init s w).faultsDisabled) :
    ∀ v s' w', write s w fd buf count = .ret v s' w' →
      s'.faultsDisabled ∧ ∃ tbl, s'.fd_to_buf = some tbl := by
  intro v s' w' hr
  obtain ⟨tbl, htbl⟩ := maybe_init_isSome s w
  rcases write_ret_cases s w fd buf count v s' w' hr with h1 | ⟨_, b, _, h1⟩
  · rw [h1]; exact ⟨h, tbl, htbl⟩
  · rw [h1]; exact ⟨h, _, setEntry_isSome _ fd b tbl htbl⟩

theorem step_disabled (fuel : Nat) (s : State) (w : World) (c : Call)
    (h : (maybe_init s w).faultsDisabled) :
    (step fuel s w c).isKilled = false ∧
    (step fuel s w c).world.nrand = w.nrand ∧
    ∀ v s' w', step fuel s w c = .ret v s' w' →
      (s'.faultsDisabled ∧ ∃ tbl, s'.fd_to_buf = some tbl) ∧
      ∀ fd, c = .fsync fd → v = some 0 := by
  cases c with
  | write fd buf count =>
    obtain ⟨_, hnr, hk⟩ := write_world s w fd buf count
    refine ⟨by simp only [step, mapValue_isKilled]; exact hk,
      by simp only [step, mapValue_world]; exact hnr, ?_⟩
    intro v s' w' hr
    obtain ⟨r, hw, _⟩ := mapValue_ret_inv some _ v s' w' hr
    exact ⟨write_disabled s w fd buf count h r s' w' hw, fun fd' hc => by cases hc⟩
  | fsync fd =>
    obtain ⟨hk, hnr, hret⟩ := fsync_disabled fuel s w fd h
    refine ⟨by simp only [step, mapValue_isKilled]; exact hk,
      by simp only [step, mapValue_world]; exact hnr, ?_⟩
    intro v s' w' hr
    obtain ⟨r, hw, hv⟩ := mapValue_ret_inv some _ v s' w' hr
    obtain ⟨hr0, hd, ht⟩ := hret r s' w' hw
    exact ⟨⟨hd, ht⟩, fun fd' _ => by rw [hv, hr0]⟩
  | fdatasync fd =>
    obtain ⟨hk, hnr, hret⟩ := fsync_disabled fuel s w fd h
    refine ⟨by simp only [step, fdatasync_isKilled]; exact hk,
      by simp only [step, fdatasync_world]; exact hnr, ?_⟩
    intro v s' w' hr
    obtain ⟨r, hw, _⟩ := fdatasync_ret_inv fuel s w fd v s' w' hr
    obtain ⟨_, hd, ht⟩ := hret r s' w' hw
    exact ⟨⟨hd, ht⟩, fun fd' hc => by cases hc⟩

theorem run_disabled (fuel : Nat) (cs : List Call) :
    ∀ (s : State) (w : World), (maybe_init s w).faultsDisabled →
      (run fuel s w cs).isKilled = false ∧
      (run fuel s w cs).world.nrand = w.nrand ∧
      ∀ vs s' w', run fuel s w cs = .ret vs s' w' →
        (maybe_init s' w').faultsDisabled ∧
        ∀ p ∈ cs.zip vs, ∀ fd, p.1 = Call.fsync fd → p.2 = some 0 := by
  induction cs with
  | nil =>
    intro s w h
    refine ⟨rfl, rfl, ?_⟩
    intro vs s' w' hr
    simp only [run] at hr
    cases hr
    exact ⟨h, by simp⟩
  | cons c cs ih =>
    intro s w h
    obtain ⟨hk, hnr, hret⟩ := step_disabled fuel s w c h
    cases hst : step fuel s w c with
    | ret v s1 w1 =>
      obtain ⟨⟨hd1, tbl1, ht1⟩, hv⟩ := hret v s1 w1 hst
      have h1 : (maybe_init s1 w1).faultsDisabled := by
        rw [maybe_init_of_some s1 w1 tbl1 ht1]; exact hd1
      obtain ⟨hk2, hnr2, hret2⟩ := ih s1 w1 h1
      rw [hst] at hnr
      rw [run_cons_ret fuel s w c cs v s1 w1 hst, mapValue_isKilled, mapValue_world]
      refine ⟨hk2, by rw [hnr2]; exact hnr, ?_⟩
      intro vs s' w' hr
      obtain ⟨vs1, hr1, hvs⟩ := mapValue_ret_inv _ _ vs s' w' hr
      obtain ⟨hd', hz⟩ := hret2 vs1 s' w' hr1
      refine ⟨hd', ?_⟩
      intro p hp fd hfd
      rw [hvs, List.zip_cons_cons] at hp
      rcases List.mem_cons.mp hp with hp | hp
      · rw [hp] at hfd ⊢
        exact hv fd hfd
      · exact hz p hp fd hfd
    | killed w1 => rw [hst] at hk; cases hk
    | aborted w1 =>
      rw [hst] at hnr
      simp only [run, hst]
      exact ⟨rfl, hnr, fun vs s' w' hr => by cases hr⟩
    | undefined w1 =>
      rw [hst] at hnr
      simp only [run, hst]
      exact ⟨rfl, hnr, fun vs s' w' hr => by cases hr⟩
    | outOfFuel w1 =>
      rw [hst] at hnr
      simp only [run, hst]
      exact ⟨rfl, hnr, fun vs s' w' hr => by cases hr⟩

/-- With both denominators disabled, the countdown disarmed and an honest primitive,
a sync of a descriptor of the table returns 0 when the fuel allows one iteration per
pending byte. -/
theorem fsync_disabled_returns (fuel : Nat) (s : State) (w : World) (fd : Int)
    (h : (maybe_init s w).faultsDisabled) (hwf : s.WF) (h0 : 0 ≤ fd) (h1 : fd < kMaxFd)
    (hgood : w.honest) (hfuel : s.len fd ≤ fuel) (hsz : s.len fd < SIZE_MOD) :
    ∃ s' w', fsync fuel s w fd = .ret 0 s' w' := by
  obtain ⟨hcf, hsf, hnum⟩ := h
  have hss : sync_state s w = maybe_init s w := countdown_of_disarmed _ hnum
  obtain ⟨tbl, htbl⟩ := maybe_init_isSome s w
  obtain ⟨b0, he0, _, _⟩ := entry_isSome_of_WF _ tbl fd htbl (maybe_init_WF s w hwf) h0 h1
  rcases fsync_cases fuel s w fd with h2 | h2 | h2 | h2 | h2 | h2
  · rw [← maybe_init_num s w, hnum] at h2; exact absurd h2.1 (by decide)
  · rw [hss, he0] at h2; cases h2.2.1
  · exact ⟨_, _, h2.2.2⟩
  · rw [hss] at h2
    have := h2.2.2.1.1
    omega
  · rw [hss] at h2
    have := h2.2.2.2.1.1
    omega
  · obtain ⟨_, _, _, b, blk, hb, _, heq⟩ := h2
    rw [hss, he0] at hb
    have hbb : b0 = b := Option.some.inj hb
    subst hbb
    have hlen : s.len fd = b0.len := by
      rw [← maybe_init_len s w fd]; exact len_eq_of_entry _ fd b0 he0
    rw [hlen] at hfuel hsz
    obtain ⟨calls, hrun, _⟩ := flush_loop_honest fd blk fuel b0.len
      (draws_world (sync_state s w) w) (draws_world_honest _ w hgood) hfuel hsz
    rw [hrun] at heq
    exact ⟨_, _, heq⟩

/-- C11: the configuration in force (the one already initialised, or the one
`maybe_init` reads on the first call, where an absent variable leaves the default
`-1`) has both denominators not positive, and the countdown is `-1`.  Then for every
sequence of calls of `write`, `fsync` and `fdatasync` and every sequence of draws no
call is ended by `SIGKILL`, every `fsync` that returns returned 0, the countdown is
still `-1` and both denominators are still not positive, and `random()` was not
called at all, so no remainder by a denominator was computed.  Moreover, in such a state a
sync of a descriptor of the table does return 0 when the real `write` honours its
contract. -/
theorem disabled_denominators_inject_no_fault (fuel : Nat) (s : State) (w : World)
    (cs : List Call) (h : (maybe_init s w).faultsDisabled) :
    (run fuel s w cs).isKilled = false ∧
    (run fuel s w cs).world.nrand = w.nrand ∧
    (∀ vs s' w', run fuel s w cs = .ret vs s' w' →
      s'.num_syncs_until_crash = -1 ∧
      (maybe_init s' w').faultsDisabled ∧
      ∀ p ∈ cs.zip vs, ∀ fd, p.1 = Call.fsync fd → p.2 = some 0) ∧
    (∀ fd, s.WF → 0 ≤ fd → fd < kMaxFd → w.honest → s.len fd ≤ fuel →
      s.len fd < SIZE_MOD → ∃ s' w', fsync fuel s w fd = .ret 0 s' w') := by
  obtain ⟨hk, hnr, hret⟩ := run_disabled fuel cs s w h
  refine ⟨hk, hnr, ?_, ?_⟩
  · intro vs s' w' hr
    obtain ⟨hd, hz⟩ := hret vs s' w' hr
    exact ⟨by rw [← maybe_init_num s' w']; exact hd.2.2, hd, hz⟩
  · intro fd hwf h0 h1 hgood hfuel hsz
    exact fsync_disabled_returns fuel s w fd h hwf h0 h1 hgood hfuel hsz

/-- Witness of C11: from the initial state with `CRASH_FAILURE_ONE_IN` absent and
`SYNC_FAILURE_ONE_IN=0`, `"AB"` is written to descriptor 3, which is then synced
twice, and descriptor 5 is synced. -/
theorem disabled_denominators_inject_no_fault_witness :
    (run 2 State.initial (exampleWorld ⟨none, some 0, none⟩ true 0 1)
      [Call.write 3 (some [65, 66]) 2, Call.fsync 3, Call.fdatasync 3,
        Call.fsync 5]).isKilled = false ∧
    (run 2 State.initial (exampleWorld ⟨none, some 0, none⟩ true 0 1)
      [Call.write 3 (some [65, 66]) 2, Call.fsync 3, Call.fdatasync 3,
        Call.fsync 5]).world.nrand = (exampleWorld ⟨none, some 0, none⟩ true 0 1).nrand :=
  ⟨(disabled_denominators_inject_no_fault 2 State.initial
      (exampleWorld ⟨none, some 0, none⟩ true 0 1)
      [Call.write 3 (some [65, 66]) 2, Call.fsync 3, Call.fdatasync 3, Call.fsync 5]
      ⟨by decide, by decide, by decide⟩).1,
    (disabled_denominators_inject_no_fault 2 State.initial
      (exampleWorld ⟨none, some 0, none⟩ true 0 1)
      [Call.write 3 (some [65, 66]) 2, Call.fsync 3, Call.fdatasync 3, Call.fsync 5]
      ⟨by decide, by decide, by decide⟩).2.1⟩

/-! ## Frame -/

theorem delivered_append_other (log calls : List WriteCall) (fd fd' : Int) (hne : fd' ≠ fd)
    (h : ∀ c ∈ calls, c.fd = fd) : delivered (log ++ calls) fd' = delivered log fd' := by
  unfold delivered
  have hnil : calls.filter (fun c => c.fd = fd') = [] := by
    rw [List.filter_eq_nil_iff]
    intro c hc
    have := h c hc
    simp only [decide_eq_true_eq]
    omega
  rw [List.filter_append, hnil, List.append_nil]

theorem pending_of_entry_eq (s t : State) (fd : Int) (h : s.entry fd = t.entry fd) :
    s.pending fd = t.pending fd := by
  unfold State.pending
  rw [h]

/-- In every outcome of `fsync` the log has grown by calls for `fd` only. -/
theorem fsync_world_log (fuel : Nat) (s : State) (w : World) (fd : Int) :
    ∃ calls, (fsync fuel s w fd).world.log = w.log ++ calls ∧ ∀ c ∈ calls, c.fd = fd := by
  rcases fsync_cases fuel s w fd with h | h | h | h | h | h
  · exact ⟨[], by rw [h.2]; simp [Outcome.world], by simp⟩
  · exact ⟨[], by rw [h.2.2]; simp [Outcome.world], by simp⟩
  · exact ⟨[], by rw [h.2.2]; simp [Outcome.world], by simp⟩
  · exact ⟨[], by rw [h.2.2.2]; simp [Outcome.world, draw_selects_log], by simp⟩
  · exact ⟨[], by rw [h.2.2.2.2]; simp [Outcome.world, draws_world_log], by simp⟩
  · obtain ⟨_, _, _, b, blk, _, _, heq⟩ := h
    obtain ⟨calls, hlog, hall⟩ :=
      flush_loop_log fd blk fuel b.len (draws_world (sync_state s w) w)
    refine ⟨calls, ?_, fun c hc => (hall c hc).1⟩
    rw [heq, toOutcome_world, hlog, draws_world_log]

/-- A returning `fsync` leaves the entry of every other descriptor as it is. -/
theorem fsync_ret_entry_other (fuel : Nat) (s : State) (w : World) (fd fd' : Int) (v : Int)
    (s' : State) (w' : World) (hne : fd' ≠ fd) (h : fsync fuel s w fd = .ret v s' w') :
    s'.entry fd' = (maybe_init s w).entry fd' := by
  have hset : ∀ b0 b, (sync_state s w).entry fd = some b0 →
      ((sync_state s w).setEntry fd b).entry fd' = (maybe_init s w).entry fd' := by
    intro b0 b hb0
    obtain ⟨_, _, h0, _⟩ := entry_some_range _ fd b0 hb0
    rw [entry_setEntry_ne _ fd fd' b h0 hne, sync_state_entry]
  rcases fsync_cases fuel s w fd with h1 | h1 | h1 | h1 | h1 | h1
  · rw [h1.2] at h; cases h
  · rw [h1.2.2] at h; cases h
  · rw [h1.2.2] at h; cases h
    exact sync_state_entry s w fd'
  · rw [h1.2.2.2] at h; cases h
  · obtain ⟨_, ⟨b0, _, hb0, _⟩, _, _, heq⟩ := h1
    rw [heq] at h; cases h
    rw [entry_arm]
    exact hset b0 _ hb0
  · obtain ⟨_, _, _, b, blk, hb, _, heq⟩ := h1
    rw [heq] at h
    cases hfl : flush_loop fd blk fuel b.len (draws_world (sync_state s w) w) with
    | done w3 =>
      rw [hfl] at h
      simp only [Flush.toOutcome] at h
      cases h
      exact hset b _ hb
    | failed w3 => rw [hfl] at h; simp only [Flush.toOutcome] at h; cases h
    | outOfFuel w3 => rw [hfl] at h; simp only [Flush.toOutcome] at h; cases h

/-- C19 as amended: `write(fd, ..)` and `fsync(fd)` touch no table entry but that
of `fd`.  For every other descriptor `fd'`, in every outcome of either call the
bytes delivered to the file of `fd'` are what they were (each new call of the real
`write` is for `fd`), and when the call returns the entry of `fd'` is that of the
initialised table and its pending bytes are unchanged.  A `write` that returns
leaves the countdown as it is, and leaves the three parameters as they were once the
table is allocated; on a state whose table is not allocated yet they are what
`maybe_init` reads from the environment. -/
theorem write_and_fsync_frame (fuel : Nat) (s : State) (w : World) (fd fd' : Int)
    (hne : fd' ≠ fd) :
    (∀ buf count,
      delivered (write s w fd buf count).world.log fd' = delivered w.log fd' ∧
      ∀ v s' w', write s w fd buf count = .ret v s' w' →
        s'.entry fd' = (maybe_init s w).entry fd' ∧
        s'.pending fd' = s.pending fd' ∧
        s'.num_syncs_until_crash = s.num_syncs_until_crash ∧
        s'.crash_failure_one_in = (maybe_init s w).crash_failure_one_in ∧
        s'.sync_failure_one_in = (maybe_init s w).sync_failure_one_in ∧
        s'.crash_after_sync_failure = (maybe_init s w).crash_after_sync_failure ∧
        (s.fd_to_buf ≠ none →
          s'.crash_failure_one_in = s.crash_failure_one_in ∧
          s'.sync_failure_one_in = s.sync_failure_one_in ∧
          s'.crash_after_sync_failure = s.crash_after_sync_failure)) ∧
    (delivered (fsync fuel s w fd).world.log fd' = delivered w.log fd' ∧
      ∀ v s' w', fsync fuel s w fd = .ret v s' w' →
        s'.entry fd' = (maybe_init s w).entry fd' ∧
        s'.pending fd' = s.pending fd') := by
  constructor
  · intro buf count
    obtain ⟨⟨calls, hlog, hall⟩, _, _⟩ := write_world s w fd buf count
    refine ⟨by rw [hlog]; exact delivered_append_other _ calls fd fd' hne hall, ?_⟩
    intro v s' w' hr
    have hent : s'.entry fd' = (maybe_init s w).entry fd' := by
      rcases write_ret_cases s w fd buf count v s' w' hr with h1 | ⟨b0, b, hb0, h1⟩
      · rw [h1]
      · obtain ⟨_, _, h0, _⟩ := entry_some_range _ fd b0 hb0
        rw [h1, entry_setEntry_ne _ fd fd' b h0 hne]
    have hcfg : s'.crash_failure_one_in = (maybe_init s w).crash_failure_one_in ∧
        s'.sync_failure_one_in = (maybe_init s w).sync_failure_one_in ∧
        s'.crash_after_sync_failure = (maybe_init s w).crash_after_sync_failure := by
      rcases write_ret_cases s w fd buf count v s' w' hr with h1 | ⟨_, b, _, h1⟩
      · rw [h1]; exact ⟨rfl, rfl, rfl⟩
      · rw [h1]; exact ⟨rfl, rfl, rfl⟩
    refine ⟨hent, ?_, write_ret_num s w fd buf count v s' w' hr, hcfg.1, hcfg.2.1,
      hcfg.2.2, ?_⟩
    · rw [pending_of_entry_eq _ _ fd' hent, maybe_init_pending]
    · intro hs
      cases hs' : s.fd_to_buf with
      | none => exact absurd hs' hs
      | some tbl =>
        rw [maybe_init_of_some s w tbl hs'] at hcfg
        exact hcfg
  · obtain ⟨calls, hlog, hall⟩ := fsync_world_log fuel s w fd
    refine ⟨by rw [hlog]; exact delivered_append_other _ calls fd fd' hne hall, ?_⟩
    intro v s' w' hr
    have hent := fsync_ret_entry_other fuel s w fd fd' v s' w' hne hr
    exact ⟨hent, by rw [pending_of_entry_eq _ _ fd' hent, maybe_init_pending]⟩

/-- Witness of C19: descriptor 3 holds `"A"`; a write to descriptor 4 and a sync of
descriptor 4 leave the bytes delivered to the file of descriptor 3 as they were. -/
theorem write_and_fsync_frame_witness :
    delivered (write (exampleState (-1) (-1) (-1) [65])
        (exampleWorld ⟨none, none, none⟩ true 0 1) 4 (some [66]) 1).world.log 3 =
      delivered (exampleWorld ⟨none, none, none⟩ true 0 1).log 3 ∧
    delivered (fsync 1 (exampleState (-1) (-1) (-1) [65])
        (exampleWorld ⟨none, none, none⟩ true 0 1) 4).world.log 3 =
      delivered (exampleWorld ⟨none, none, none⟩ true 0 1).log 3 :=
  ⟨((write_and_fsync_frame 1 (exampleState (-1) (-1) (-1) [65])
      (exampleWorld ⟨none, none, none⟩ true 0 1) 4 3 (by decide)).1 (some [66]) 1).1,
    (write_and_fsync_frame 1 (exampleState (-1) (-1) (-1) [65])
      (exampleWorld ⟨none, none, none⟩ true 0 1) 4 3 (by decide)).2.1⟩

/-! ## Inputs on which C3, C13 and C19 fail as stated -/

/-- C3 as stated fails.  With `SYNC_FAILURE_ONE_IN=1` and
`CRASH_AFTER_SYNC_FAILURE=1`: a write of `"A"` to the regular-file descriptor 1024
fails the assertion of source line 77, so the process aborts and no sync of that
descriptor returns `-1`; and after `"A"` was written to descriptor 3 and its sync
failed, a sync of descriptor 1024 among the next nine indexes the table outside its
1024 entries and does not return 0 in the model. -/
theorem write_or_sync_of_descriptor_1024 :
    (write State.initial (exampleWorld ⟨none, some 1, some 1⟩ true 0 1) 1024
      (some [65]) 1).isAborted = true ∧
    (run 0 State.initial (exampleWorld ⟨none, some 1, some 1⟩ true 0 1)
      [Call.write 3 (some [65]) 1, Call.fsync 3]).value = some [some 1, some (-1)] ∧
    (run 0 State.initial (exampleWorld ⟨none, some 1, some 1⟩ true 0 1)
      [Call.write 3 (some [65]) 1, Call.fsync 3, Call.fsync 1024]).isUndefined = true ∧
    (run 0 State.initial (exampleWorld ⟨none, some 1, some 1⟩ true 0 1)
      [Call.write 3 (some [65]) 1, Call.fsync 3, Call.fsync 1024]).value = none := by
  decide

/-- C19 as stated fails: the first `write` of the process, here of zero bytes to
descriptor 3, with `CRASH_FAILURE_ONE_IN=5`, `SYNC_FAILURE_ONE_IN=7` and
`CRASH_AFTER_SYNC_FAILURE=1`, returns 0 and changes the three parameters from
`(-1, -1, false)` to `(5, 7, true)`: the call of `maybe_init` at source line 76 reads
them from the environment. -/
theorem first_write_sets_parameters :
    (State.initial.crash_failure_one_in, State.initial.sync_failure_one_in,
      State.initial.crash_after_sync_failure) = (-1, -1, false) ∧
    (write State.initial (exampleWorld ⟨some 5, some 7, some 1⟩ true 0 1) 3
      (some []) 0).value = some 0 ∧
    (write State.initial (exampleWorld ⟨some 5, some 7, some 1⟩ true 0 1) 3
      (some []) 0).state.map (fun s => (s.crash_failure_one_in, s.sync_failure_one_in,
        s.crash_after_sync_failure)) = some (5, 7, true) := by
  decide

/-! ## A write while a flush is in flight -/

theorem fsync_body_eq_locked_finish (fuel : Nat) (s : State) (w : World) (fd : Int) :
    fsync_body fuel s w fd = (fsync_body_locked s w fd).finish fuel fd := by
  unfold fsync_body fsync_body_locked
  cases s.entry fd with
  | none => rfl
  | some old_buf =>
    cases hd : old_buf.data with
    | none => simp only [hd, Locked.finish]
    | some data =>
      simp only [hd]
      split
      · rfl
      · split
        · rfl
        · simp only [Locked.finish]
          cases flush_loop fd data fuel old_buf.len
            (draw_selects (s.setEntry fd ⟨none, 0⟩).sync_failure_one_in
              (draw_selects (s.setEntry fd ⟨none, 0⟩).crash_failure_one_in w).2).2 <;> rfl

/-- Splitting `fsync` at the release of the lock changes nothing: the locked part
followed by the rest is `fsync`. -/
theorem fsync_eq_locked_finish (fuel : Nat) (s : State) (w : World) (fd : Int) :
    fsync fuel s w fd = (fsync_locked s w fd).finish fuel fd := by
  unfold fsync fsync_locked
  simp only
  split
  · split
    · rfl
    · exact fsync_body_eq_locked_finish fuel _ w fd
  · exact fsync_body_eq_locked_finish fuel _ w fd

/-- C14, evaluation of the code: descriptor 3 holds `"AB"`, no fault is injected and
the real `write` accepts one byte per call.  `fsync(3)` detaches the buffer; the
write of `"C"` to descriptor 3 by another thread then returns 1 and leaves exactly
`"C"` pending in a fresh buffer, and both calls of the loop pass the detached block
`"AB"`, so `"C"` is neither lost nor flushed.  But the second call passes the start
of the block again: the file receives `"AA"`, the byte `A` of the snapshot twice and
the byte `B` never, while `fsync` returns 0. -/
theorem write_in_flight_then_flush_repeats_snapshot_byte :
    (fsync_write_in_flight 2 (exampleState (-1) (-1) (-1) [65, 66])
      (exampleWorld ⟨none, none, none⟩ true 0 1) 3 3 (some [67]) 1).map Outcome.value
      = some (some (0, 1)) ∧
    (fsync_write_in_flight 2 (exampleState (-1) (-1) (-1) [65, 66])
      (exampleWorld ⟨none, none, none⟩ true 0 1) 3 3 (some [67]) 1).map
        (fun o => o.state.map (fun s => s.pending 3)) = some (some [67]) ∧
    (fsync_write_in_flight 2 (exampleState (-1) (-1) (-1) [65, 66])
      (exampleWorld ⟨none, none, none⟩ true 0 1) 3 3 (some [67]) 1).map
        (fun o => o.world.log) = some [⟨3, [65, 66], 2, 1⟩, ⟨3, [65, 66], 1, 1⟩] ∧
    (fsync_write_in_flight 2 (exampleState (-1) (-1) (-1) [65, 66])
      (exampleWorld ⟨none, none, none⟩ true 0 1) 3 3 (some [67]) 1).map
        (fun o => delivered o.world.log 3) = some [65, 65] := by
  decide

end IOFailureSim
